import Mathlib

/-!
Verification of the CSV-to-Jira bulk importer (`src/index.js`).

The JavaScript source is embedded shallowly:

* strings are Lean `String`s, JS `undefined` for a missing object key is
  `Option.none`;
* the JS truthiness tests used by the source (`x?.` / `x || y` on strings,
  field ids) are modelled by `truthy` / `orTruthy` (only the empty string is
  falsy among the strings the source tests);
* `Number(s)` is modelled by `jsNumber`, returning `none` for `NaN` and a
  `JSNum` (an exact rational, or a signed infinity) otherwise;
* `String.prototype.trim` is modelled by `jsTrim` over the JS whitespace
  character class;
* the asynchronous network layer is modelled by response/creation oracles
  (`Nat → Resp`, `Nat → Except RequestError Created`) indexed by call order,
  and `setTimeout` sleeps are recorded in an output list.
-/

/-! ## JS string whitespace, trimming -/

/-- The JS whitespace class (`\s`, also used by `String.prototype.trim`):
tab, LF, VT, FF, CR, space, NBSP, Ogham space mark, the U+2000..U+200A range,
line/paragraph separators, narrow NBSP, MMSP, ideographic space and the BOM. -/
def jsWhitespace (c : Char) : Bool :=
  c.toNat = 32 || c.toNat = 9 || c.toNat = 10 || c.toNat = 13 ||
  c.toNat = 11 || c.toNat = 12 || c.toNat = 0xa0 || c.toNat = 0x1680 ||
  (0x2000 ≤ c.toNat && c.toNat ≤ 0x200a) ||
  c.toNat = 0x2028 || c.toNat = 0x2029 || c.toNat = 0x202f ||
  c.toNat = 0x205f || c.toNat = 0x3000 || c.toNat = 0xfeff

/-- Drop JS whitespace from both ends of a character list. -/
def jsTrimList (l : List Char) : List Char :=
  ((l.dropWhile jsWhitespace).reverse.dropWhile jsWhitespace).reverse

/-- Model of `String.prototype.trim`. -/
def jsTrim (s : String) : String :=
  String.mk (jsTrimList s.toList)

/-- Model of `String.prototype.toLowerCase` (characterwise lowercasing; the
source only compares against ASCII literals). -/
def jsToLower (s : String) : String :=
  String.mk (s.toList.map Char.toLower)

/-! ## JS `Number(string)` -/

/-- A JS number value that `Number(string)` can produce when it is not `NaN`:
an exact rational or a signed infinity.  (The source only ever multiplies
such a value by 1000 or stores it in a payload, so exact rationals are a
faithful stand-in for the float arithmetic it performs.) -/
inductive JSNum where
  | val (q : Rat)
  | posInf
  | negInf
deriving DecidableEq, Repr

/-- Multiplication of a JS number by a (positive) natural constant, written on
the numerator/denominator representation (`q * n = (q.num * n) / q.den`). -/
def JSNum.mulNat : JSNum → Nat → JSNum
  | .val q, n => .val (mkRat (q.num * n) q.den)
  | .posInf, _ => .posInf
  | .negInf, _ => .negInf

/-- Numeric value of a decimal digit character. -/
def digitVal (c : Char) : Nat := c.toNat - '0'.toNat

/-- Hexadecimal digit test. -/
def isHexDigit (c : Char) : Bool :=
  c.isDigit || ('a' ≤ c && c ≤ 'f') || ('A' ≤ c && c ≤ 'F')

/-- Numeric value of a hexadecimal digit character. -/
def hexVal (c : Char) : Nat :=
  if c.isDigit then digitVal c
  else if 'a' ≤ c && c ≤ 'f' then c.toNat - 'a'.toNat + 10
  else c.toNat - 'A'.toNat + 10

/-- Octal digit test. -/
def isOctDigit (c : Char) : Bool := '0' ≤ c && c ≤ '7'

/-- Binary digit test. -/
def isBinDigit (c : Char) : Bool := c = '0' || c = '1'

/-- Horner evaluation of a digit string in a given base. -/
def digitsToNat (base : Nat) (val : Char → Nat) (l : List Char) : Nat :=
  l.foldl (fun a c => a * base + val c) 0

/-- Split a character list at the first `e`/`E` (decimal exponent marker). -/
def splitExpPart (l : List Char) : List Char × Option (List Char) :=
  match l.span (fun c => !(c = 'e' || c = 'E')) with
  | (m, []) => (m, none)
  | (m, _ :: rest) => (m, some rest)

/-- Split a character list at the first `.` (decimal point). -/
def splitDot (l : List Char) : List Char × Option (List Char) :=
  match l.span (fun c => !(c = '.')) with
  | (m, []) => (m, none)
  | (m, _ :: rest) => (m, some rest)

/-- Exponent part of a decimal literal: optional sign, then ≥1 digits. -/
def parseExpPart : List Char → Option Int
  | '+' :: ds =>
    if ds.isEmpty then none
    else if ds.all Char.isDigit then some (digitsToNat 10 digitVal ds) else none
  | '-' :: ds =>
    if ds.isEmpty then none
    else if ds.all Char.isDigit then some (-(digitsToNat 10 digitVal ds : Int)) else none
  | ds =>
    if ds.isEmpty then none
    else if ds.all Char.isDigit then some (digitsToNat 10 digitVal ds) else none

/-- An unsigned decimal literal `digits [. digits] [exp]` / `. digits [exp]`,
returned as (all mantissa digits, fraction length, exponent). -/
def parseUnsignedDecParts (l : List Char) : Option (Nat × Nat × Int) :=
  let (mant, expPart) := splitExpPart l
  let (ip, fpOpt) := splitDot mant
  let fp := fpOpt.getD []
  if fp.any (fun c => c = '.') then none
  else if !(ip.all Char.isDigit) || !(fp.all Char.isDigit) then none
  else if ip.isEmpty && fp.isEmpty then none
  else
    match expPart with
    | none => some (digitsToNat 10 digitVal (ip ++ fp), fp.length, 0)
    | some ec => (parseExpPart ec).map fun e => (digitsToNat 10 digitVal (ip ++ fp), fp.length, e)

/-- Exact rational value of a signed decimal literal with `digits` mantissa,
`fracLen` fractional digits and decimal exponent `e`. -/
def decValue (neg : Bool) (digits : Nat) (fracLen : Nat) (e : Int) : Rat :=
  let sgn : Int := if neg then -1 else 1
  let shift : Int := e - fracLen
  if 0 ≤ shift then mkRat (sgn * digits * 10 ^ shift.toNat) 1
  else mkRat (sgn * digits) (10 ^ (-shift).toNat)

/-- A signed top-level numeric literal: `Infinity` or an unsigned decimal. -/
def jsUnsignedTop (neg : Bool) (l : List Char) : Option JSNum :=
  if l = "Infinity".toList then some (if neg then .negInf else .posInf)
  else (parseUnsignedDecParts l).map fun p => .val (decValue neg p.1 p.2.1 p.2.2)

/-- A non-decimal (`0x`/`0o`/`0b`) integer literal body. -/
def jsRadix (base : Nat) (ok : Char → Bool) (val : Char → Nat) (l : List Char) : Option JSNum :=
  if l.isEmpty then none
  else if l.all ok then some (.val ((digitsToNat base val l : Nat) : Rat))
  else none

/-- Model of JS `Number(s)` on a string: `none` is `NaN`.  Implements the
`StringNumericLiteral` grammar: surrounding whitespace is ignored, the empty
(or all-whitespace) string is `0`, `0x`/`0o`/`0b` integer literals have no
sign, and a decimal literal is an optional sign followed by `Infinity` or a
decimal mantissa with optional fraction and exponent. -/
def jsNumber (s : String) : Option JSNum :=
  match jsTrimList s.toList with
  | [] => some (.val 0)
  | '0' :: 'x' :: rest => jsRadix 16 isHexDigit hexVal rest
  | '0' :: 'X' :: rest => jsRadix 16 isHexDigit hexVal rest
  | '0' :: 'o' :: rest => jsRadix 8 isOctDigit digitVal rest
  | '0' :: 'O' :: rest => jsRadix 8 isOctDigit digitVal rest
  | '0' :: 'b' :: rest => jsRadix 2 isBinDigit digitVal rest
  | '0' :: 'B' :: rest => jsRadix 2 isBinDigit digitVal rest
  | '+' :: rest => jsUnsignedTop false rest
  | '-' :: rest => jsUnsignedTop true rest
  | l => jsUnsignedTop false l

/-! ## ADF (Atlassian Document Format) builders — `toADF`, `isLikelyUrl` -/

/-- Split a character list at every character satisfying `p`, keeping empty
segments (the semantics of JS `String.prototype.split`); the result is never
empty. -/
def splitOnP (p : Char → Bool) : List Char → List (List Char)
  | [] => [[]]
  | c :: cs =>
    match splitOnP p cs with
    | [] => [[c]]
    | l :: ls => if p c then [] :: l :: ls else (c :: l) :: ls

/-- Model of `String(description).replace(/\r\n/g, "\n")`: left-to-right,
non-overlapping replacement of every CRLF pair by LF. -/
def replaceCRLF : List Char → List Char
  | '\r' :: '\n' :: rest => '\n' :: replaceCRLF rest
  | c :: rest => c :: replaceCRLF rest
  | [] => []

/-- CRLF-normalize a description and split it into lines at LF. -/
def splitLines (s : String) : List String :=
  (splitOnP (fun c => c = '\n') (replaceCRLF s.toList)).map String.mk

/-- An ADF inline node: a plain text node, or a text node carrying a single
link mark (`marks: [{type: "link", attrs: {href}}]`). -/
inductive ADFInline where
  | text (text : String)
  | link (href : String) (text : String)
deriving DecidableEq, Repr

/-- Model of `adfTextNode(text)`. -/
def adfTextNode (text : String) : ADFInline := .text text

/-- Model of `adfLinkNode(url, text)`: the visible text is `text || url`. -/
def adfLinkNode (url : String) (text : Option String) : ADFInline :=
  .link url (match text with
             | some t => if t = "" then url else t
             | none => url)

/-- An ADF block node: a paragraph, whose `content` key is either absent
(empty paragraph) or a list of inline nodes. -/
inductive ADFBlock where
  | para (content : Option (List ADFInline))
deriving DecidableEq, Repr

/-- An ADF document: `{version: 1, type: "doc", content: [...]}`. -/
structure ADF where
  version : Nat
  type : String
  content : List ADFBlock
deriving DecidableEq, Repr

/-- The scheme test of `isLikelyUrl`: the first 7 (resp. 8) characters,
lowercased, spell `http://` (resp. `https://`); on success return the rest. -/
def stripScheme (t : List Char) : Option (List Char) :=
  if (t.take 7).map Char.toLower = "http://".toList then some (t.drop 7)
  else if (t.take 8).map Char.toLower = "https://".toList then some (t.drop 8)
  else none

/-- Model of `isLikelyUrl(s)`, i.e. `/^https?:\/\/\S+$/i.test(s.trim())`:
after trimming, a case-insensitive `http://` or `https://` scheme followed by
one or more non-whitespace characters, with nothing else on the line. -/
def isLikelyUrl (s : String) : Bool :=
  match stripScheme (jsTrimList s.toList) with
  | some rest => !rest.isEmpty && rest.all (fun c => !jsWhitespace c)
  | none => false

/-- Per-line classification of `toADF`: an entirely blank line is an empty
paragraph, a bare URL becomes one link node, otherwise one text node carrying
the original (untrimmed) line. -/
def lineToBlock (line : String) : ADFBlock :=
  let t := jsTrim line
  if t = "" then .para none
  else if isLikelyUrl t then .para (some [adfLinkNode t none])
  else .para (some [adfTextNode line])

/-- Model of `toADF(description)`: `none` both for a missing column
(`undefined`) and for an empty/whitespace-only string, otherwise one
paragraph block per CRLF-normalized line. -/
def toADF (description : Option String) : Option ADF :=
  match description with
  | none => none
  | some d =>
    if jsTrim d = "" then none
    else some ⟨1, "doc", (splitLines d).map lineToBlock⟩

/-! ## Rows, truthiness, the identifier map -/

/-- A CSV row: column name to raw string value, as produced by the Reader. -/
abbrev Row := List (String × String)

/-- Lookup of a column in a row; `none` models `undefined`. -/
def rowGet : Row → String → Option String
  | [], _ => none
  | (k', v) :: rest, k => if k' = k then some v else rowGet rest k

/-- JS truthiness of a possibly-missing string: `undefined` and `""` are the
only falsy cases the source can meet. -/
def truthy : Option String → Bool
  | none => false
  | some s => !(s = "")

/-- Model of `a || b` on a possibly-missing string `a` and a string `b`. -/
def orTruthy (a : Option String) (b : String) : String :=
  match a with
  | some s => if s = "" then b else s
  | none => b

/-- A created issue, the `{id, key}` the destination returns. -/
structure Created where
  id : String
  key : String
deriving DecidableEq, Repr

/-- The IdentifierMap (`epicMap`), an insertion-ordered map as a JS `Map`:
the association list of `(localId, {id, key})` pairs. -/
abbrev IdMap := List (String × Created)

/-- Model of `Map.prototype.get`. -/
def mget : IdMap → String → Option Created
  | [], _ => none
  | (k', v) :: rest, k => if k' = k then some v else mget rest k

/-- Model of `Map.prototype.set`: updates an existing key in place (keeping its
insertion position) or appends a new one. -/
def mset : IdMap → String → Created → IdMap
  | [], k, v => [(k, v)]
  | (k', v') :: rest, k, v =>
    if k' = k then (k, v) :: rest else (k', v') :: mset rest k v

/-- The three optional custom-field identifiers discovered by `getFields`. -/
structure Schema where
  epicLinkId : Option String
  storyPointsId : Option String
  epicNameId : Option String
deriving DecidableEq, Repr

/-- The run configuration the mapper reads from the environment:
`PROJECT_KEY` (checked non-missing at startup) and the raw
`process.env.TEAM_MANAGED` value. -/
structure Env where
  projectKey : String
  teamManaged : Option String
deriving DecidableEq, Repr

/-- Model of `String(process.env.TEAM_MANAGED || "false").toLowerCase() === "true"`. -/
def isTeamManaged (env : Env) : Bool :=
  jsToLower (orTruthy env.teamManaged "false") = "true"

/-! ## The Field Mapper — `buildFields` -/

/-- The `fields` payload object built for one row.  Keys that the source
attaches conditionally are `Option`s (`none` = key absent); `labels` is
always present.  `storyPointsField`, `epicNameField` and `epicLinkField`
stand for the dynamic custom-field keys `fields[storyPointsId]`,
`fields[epicNameId]` and `fields[epicLinkId]`; `parent` holds the id of the
`{id}` parent reference. -/
structure Fields where
  project : String
  issuetype : String
  summary : String
  labels : List String
  description : Option ADF := none
  storyPointsField : Option JSNum := none
  epicNameField : Option String := none
  parent : Option String := none
  epicLinkField : Option String := none
deriving DecidableEq, Repr

/-- Decidable equality for `Except`, so concrete runs evaluate by `decide`. -/
instance {ε α : Type} [DecidableEq ε] [DecidableEq α] : DecidableEq (Except ε α)
  | .error a, .error b =>
    if h : a = b then isTrue (by rw [h]) else isFalse (by intro he; cases he; exact h rfl)
  | .error _, .ok _ => isFalse (by intro h; cases h)
  | .ok _, .error _ => isFalse (by intro h; cases h)
  | .ok a, .ok b =>
    if h : a = b then isTrue (by rw [h]) else isFalse (by intro he; cases he; exact h rfl)

/-- The validation failure `throw new Error("Row missing 'Summary'")`. -/
structure ValidationError where
  msg : String
deriving DecidableEq, Repr

/-- Model of `(row["Labels"] || "").split(/[,; ]+/).filter(Boolean)`: split on any run
of comma, semicolon or space, discarding empty tokens. -/
def splitLabels (s : String) : List String :=
  ((splitOnP (fun c => c = ',' || c = ';' || c = ' ') s.toList).map String.mk).filter
    (fun t => !(t = ""))

/-- Model of `row["Issue Type"]?.trim() || "Task"`. -/
def issueTypeOf (row : Row) : String :=
  orTruthy ((rowGet row "Issue Type").map jsTrim) "Task"

/-- The unconditional part of the payload: project key (with the configured
fallback), issue type (default `"Task"`), trimmed summary, labels and the
optional ADF description. -/
def baseFields (row : Row) (env : Env) (summary : String) : Fields :=
  { project := orTruthy ((rowGet row "Project Key").map jsTrim) env.projectKey
    issuetype := issueTypeOf row
    summary := summary
    labels := splitLabels (orTruthy (rowGet row "Labels") "")
    description := toADF (rowGet row "Description") }

/-- Story points: attached only when the column is truthy, the field id is
resolved and `Number(value)` is not `NaN`. -/
def addStoryPoints (row : Row) (sch : Schema) (f : Fields) : Fields :=
  if truthy (rowGet row "Story Points") && truthy sch.storyPointsId then
    match jsNumber ((rowGet row "Story Points").getD "") with
    | some n => { f with storyPointsField := some n }
    | none => f
  else f

/-- Epic rows, company-managed mode: attach the epic-name custom field with
`row["Epic Name"]?.trim() || summary`. -/
def addEpicName (row : Row) (sch : Schema) (env : Env) (summary : String) (f : Fields) : Fields :=
  if !isTeamManaged env && truthy sch.epicNameId then
    { f with epicNameField := some (orTruthy ((rowGet row "Epic Name").map jsTrim) summary) }
  else f

/-- Sub-task parenting: a truthy trimmed `Parent Id` on a `sub-task` row is
looked up in the identifier map; a hit attaches `parent = {id}`. -/
def addSubtaskParent (row : Row) (epicMap : IdMap) (f : Fields) : Fields :=
  let parentId := (rowGet row "Parent Id").map jsTrim
  if jsToLower (issueTypeOf row) = "sub-task" && truthy parentId then
    match mget epicMap (parentId.getD "") with
    | some p => { f with parent := some p.id }
    | none => f
  else f

/-- Epic-link resolution: a truthy trimmed `Epic Link` looked up in the
identifier map; a hit attaches `parent = {id}` in team-managed mode, else the
epic-link custom field with the destination key (when resolved). -/
def addEpicLink (row : Row) (sch : Schema) (env : Env) (epicMap : IdMap) (f : Fields) : Fields :=
  let epicLink := (rowGet row "Epic Link").map jsTrim
  if truthy epicLink then
    match mget epicMap (epicLink.getD "") with
    | some e =>
      if isTeamManaged env then { f with parent := some e.id }
      else if truthy sch.epicLinkId then { f with epicLinkField := some e.key }
      else f
    | none => f
  else f

/-- Model of `buildFields(row, opts)`: fails iff the trimmed Summary is
missing or empty; epic rows return right after the epic-name rule and never
reach the parent/epic-link rules. -/
def buildFields (row : Row) (sch : Schema) (epicMap : IdMap) (env : Env) :
    Except ValidationError Fields :=
  match (rowGet row "Summary").map jsTrim with
  | none => .error ⟨"Row missing Summary"⟩
  | some summary =>
    if summary = "" then .error ⟨"Row missing Summary"⟩
    else
      let f := addStoryPoints row sch (baseFields row env summary)
      if jsToLower (issueTypeOf row) = "epic" then .ok (addEpicName row sch env summary f)
      else .ok (addEpicLink row sch env epicMap (addSubtaskParent row epicMap f))

/-! ## The Resilient Request Executor — `requestWithRetry` -/

/-- A response as the executor sees it: numeric status, the
`headers["retry-after"]` value when the header is present, and the body
(`JSON.stringify(res.data)`). -/
structure Resp where
  status : Nat
  retryAfter : Option String
  body : String
deriving DecidableEq, Repr

/-- The permanent failure thrown by the executor, embedding the last observed
status and body. -/
structure RequestError where
  status : Nat
  body : String
deriving DecidableEq, Repr

/-- Model of `res.status === 429 || res.status >= 500`. -/
def retryableStatus (s : Nat) : Bool := s = 429 || 500 ≤ s

/-- The sleep before a retry:
`!isNaN(Number(headers["retry-after"])) ? retryAfter * 1000 : wait`.
(`Number(undefined)` is `NaN`, so an absent header also falls back to the
internal backoff timer `wait`.) -/
def sleepFor (r : Resp) (wait : Nat) : JSNum :=
  match r.retryAfter.bind jsNumber with
  | some n => n.mulNat 1000
  | none => .val wait

/-- What one run of the executor did: its result, how many attempts it made
(the loop's `attempt` counter when it stopped) and the sleeps it performed,
in order. -/
structure RetryOutcome where
  result : Except RequestError Resp
  attempts : Nat
  sleeps : List JSNum
deriving Repr

/-- The retry loop of `requestWithRetry`, with the responses of the
consecutive calls of `fn` given by an oracle indexed by call order.
`fuel` is `max - attempt + 1`, the number of attempts still allowed: the
loop guard `attempt >= max` is `fuel = 1` after making the call, so the
`fuel = 0` equation is unreachable from `requestWithRetry` (it repeats the
guard's throw). -/
def requestWithRetryGo (fn : Nat → Resp) : Nat → Nat → Nat → RetryOutcome
  | idx, wait, fuel + 1 =>
    let res := fn idx
    if res.status < 400 then ⟨.ok res, 1, []⟩
    else if fuel = 0 || !retryableStatus res.status then ⟨.error ⟨res.status, res.body⟩, 1, []⟩
    else
      let rest := requestWithRetryGo fn (idx + 1) (min (wait * 2) 15000) fuel
      ⟨rest.result, rest.attempts + 1, sleepFor res wait :: rest.sleeps⟩
  | idx, _, 0 => ⟨.error ⟨(fn idx).status, (fn idx).body⟩, 1, []⟩

/-- Model of `requestWithRetry(fn)`: `max = 5` attempts, initial backoff
`wait = 1000` ms. -/
def requestWithRetry (fn : Nat → Resp) : RetryOutcome :=
  requestWithRetryGo fn 0 1000 5

/-- The internal backoff timer after `k` retries: starts at `w`, doubles
after each sleep, capped at 15000. -/
def waitSeq (w : Nat) : Nat → Nat
  | 0 => w
  | k + 1 => waitSeq (min (w * 2) 15000) k

/-! ## The Import Orchestrator — `main`'s two passes -/

/-- The epic test of `main`'s passes:
`(row["Issue Type"] || "").toLowerCase() === "epic"` (no trimming here). -/
def isEpicRow (r : Row) : Bool :=
  jsToLower ((rowGet r "Issue Type").getD "") = "epic"

/-- The local id a created row is recorded under:
`(row["Issue Id"] || row["Summary"]).trim()`.  (`main` computes this only
after `buildFields` succeeded, so Summary is then a present, non-blank
string; the `getD ""` stands for the unreachable `undefined`.) -/
def localId (r : Row) : String :=
  jsTrim (orTruthy (rowGet r "Issue Id") ((rowGet r "Summary").getD ""))

/-- A run abort: a row failing validation, or a create call failing
permanently / exhausting its retries. -/
inductive RunError where
  | validation (e : ValidationError)
  | request (e : RequestError)
deriving DecidableEq, Repr

/-- One created row, as observed by one pass of the orchestrator: the phase
(1 = epics, 2 = the rest), the row, the identifier map at the moment its
payload was built, the payload, the creation response, and the map right
after the row was recorded. -/
structure TraceEntry where
  phase : Nat
  row : Row
  mapAtBuild : IdMap
  payload : Fields
  created : Created
  mapAfter : IdMap
deriving DecidableEq, Repr

/-- One pass of `main`: iterate `rows` in source order, and for each row
passing `pred`, build its payload against the current map, submit the create
(the oracle `creates`, indexed by global creation order `n`), and record
`localId -> {id, key}`. -/
def runPassGo (phase : Nat) (pred : Row → Bool) (sch : Schema) (env : Env)
    (creates : Nat → Except RequestError Created) :
    List Row → IdMap → Nat → Except RunError (IdMap × Nat × List TraceEntry)
  | [], m, n => .ok (m, n, [])
  | r :: rest, m, n =>
    if pred r then
      match buildFields r sch m env with
      | .error e => .error (.validation e)
      | .ok f =>
        match creates n with
        | .error e => .error (.request e)
        | .ok c =>
          let m2 := mset m (localId r) c
          match runPassGo phase pred sch env creates rest m2 (n + 1) with
          | .error e => .error e
          | .ok (mf, nf, tr) => .ok (mf, nf, ⟨phase, r, m, f, c, m2⟩ :: tr)
    else runPassGo phase pred sch env creates rest m n

/-- The outcome of a successful run: the final identifier map, the serialized
report (`JSON.stringify([...epicMap])`, i.e. the map's pair list in insertion
order), and the per-row trace, phase 1 before phase 2. -/
structure RunResult where
  finalMap : IdMap
  report : IdMap
  trace : List TraceEntry
deriving DecidableEq, Repr

/-- Model of `main`'s core: pass 1 creates the epic rows, pass 2 the
remaining rows, both in source order, sharing one identifier map; on full
success the map is serialized as the report. -/
def runMain (rows : List Row) (sch : Schema) (env : Env)
    (creates : Nat → Except RequestError Created) : Except RunError RunResult :=
  match runPassGo 1 isEpicRow sch env creates rows [] 0 with
  | .error e => .error e
  | .ok (m1, n1, tr1) =>
    match runPassGo 2 (fun r => !isEpicRow r) sch env creates rows m1 n1 with
    | .error e => .error e
    | .ok (m2, _, tr2) => .ok ⟨m2, m2, tr1 ++ tr2⟩

/-! ## Spec-side definitions (for refinement comparisons) and witness fixtures -/

/-- Modelled on the claim wording for the labels rule: split on any run of
comma, semicolon or **whitespace** characters, empty tokens discarded.  (The
source splits on `/[,; ]+/`, i.e. only on the space character.) -/
def claimLabels (s : String) : List String :=
  ((splitOnP (fun c => c = ',' || c = ';' || jsWhitespace c) s.toList).map String.mk).filter
    (fun t => !(t = ""))

/-- The claim wording of the bare-URL predicate, on a trimmed character list:
a (case-insensitive) `http://` or `https://` scheme, at least one further
character, and no whitespace anywhere in the line. -/
def specBareUrl (t : List Char) : Prop :=
  ((t.take 7).map Char.toLower = "http://".toList ∧ 7 < t.length ∨
   (t.take 8).map Char.toLower = "https://".toList ∧ 8 < t.length) ∧
  ∀ c ∈ t, jsWhitespace c = false

/-- The spec wording of the local id: the row's Issue Id if non-empty, else
its Summary, trimmed. -/
def localIdSpec (r : Row) : String :=
  if (rowGet r "Issue Id").getD "" ≠ "" then jsTrim ((rowGet r "Issue Id").getD "")
  else jsTrim ((rowGet r "Summary").getD "")

/-- Witness oracle for the executor: a 503 without Retry-After, then a 429
with `Retry-After: 2`, then success. -/
def fnRetrySeq (n : Nat) : Resp :=
  if n = 0 then ⟨503, none, "busy"⟩
  else if n = 1 then ⟨429, some "2", "throttled"⟩
  else ⟨201, none, "created"⟩

/-- Witness rows: one epic and one task that epic-links to it. -/
def rowsEpicTask : List Row :=
  [[("Issue Id", "E1"), ("Issue Type", "Epic"), ("Summary", "Release")],
   [("Issue Type", "Task"), ("Summary", "Fix bug"), ("Epic Link", "E1")]]

/-- Witness rows: two tasks with no Issue Id and the same Summary, so both
are recorded under the same local id. -/
def rowsDupSummary : List Row :=
  [[("Issue Type", "Task"), ("Summary", "dup")],
   [("Issue Type", "Task"), ("Summary", "dup")]]

/-- Witness creation oracle: the n-th create succeeds with id `1000n`, key
`PK-n`. -/
def createsOk (n : Nat) : Except RequestError Created :=
  .ok ⟨s!"1000{n}", s!"PK-{n}"⟩

/-- Counterexample rows: an epic with local id `E1`, then a task whose
Summary is also `E1` (its creation overwrites the epic's map entry), then a
task that names `E1` in Epic Link. -/
def rowsCollide : List Row :=
  [[("Issue Id", "E1"), ("Issue Type", "Epic"), ("Summary", "Release")],
   [("Issue Type", "Task"), ("Summary", "E1")],
   [("Issue Type", "Task"), ("Summary", "Fix bug"), ("Epic Link", "E1")]]

/-- Counterexample rows: an epic, then a row whose raw Issue Type `" Epic "`
is non-epic for the pass test (no trimming in `main`) but trims to an epic
inside the mapper, so it is created in pass 2 yet gets no reference. -/
def rowsPadded : List Row :=
  [[("Issue Id", "E1"), ("Issue Type", "Epic"), ("Summary", "Release")],
   [("Issue Type", " Epic "), ("Summary", "Child"), ("Epic Link", "E1")]]

/-- The last trace entry recorded under local id `k` (later entries win),
mirroring the overwriting `Map.set` discipline of the run. -/
def lastEntryFor : List TraceEntry → String → Option TraceEntry
  | [], _ => none
  | t :: rest, k =>
    match lastEntryFor rest k with
    | some u => some u
    | none => if localId t.row = k then some t else none

/-- The `{id, key}` stored under `k` after replaying the trace entries `l`
over an initial map `m`: the last writer's creation, else the initial
binding. -/
def mgetOr (l : List TraceEntry) (m : IdMap) (k : String) : Option Created :=
  match lastEntryFor l k with
  | some u => some u.created
  | none => mget m k

/-- What the retry loop guarantees, for an arbitrary start index, backoff
timer and remaining attempt budget `fuel`: between 1 and `fuel` attempts; one
sleep per non-final attempt; every non-final attempt saw a retryable failure
(429 or ≥ 500) and slept the Retry-After value when numeric, else the backoff
timer; a success is the final response with status < 400; a failure embeds
the final response's status and body, which had status ≥ 400 and was either
non-retryable or exhausted the budget. -/
def RetrySpec (fn : Nat → Resp) (idx wait fuel : Nat) (out : RetryOutcome) : Prop :=
  (1 ≤ out.attempts ∧ out.attempts ≤ fuel) ∧
  out.sleeps.length = out.attempts - 1 ∧
  (∀ k, k + 1 < out.attempts →
    400 ≤ (fn (idx + k)).status ∧ retryableStatus (fn (idx + k)).status = true ∧
    out.sleeps.get? k = some (sleepFor (fn (idx + k)) (waitSeq wait k))) ∧
  (∀ r, out.result = .ok r → r = fn (idx + (out.attempts - 1)) ∧ r.status < 400) ∧
  (∀ e, out.result = .error e →
    e.status = (fn (idx + (out.attempts - 1))).status ∧
    e.body = (fn (idx + (out.attempts - 1))).body ∧
    400 ≤ (fn (idx + (out.attempts - 1))).status ∧
    (out.attempts = fuel ∨
     retryableStatus (fn (idx + (out.attempts - 1))).status = false))

/-! ## Stage lemmas for `buildFields` -/

theorem baseFields_parent (row : Row) (env : Env) (s : String) :
    (baseFields row env s).parent = none := rfl

theorem baseFields_epicLinkField (row : Row) (env : Env) (s : String) :
    (baseFields row env s).epicLinkField = none := rfl

theorem baseFields_epicNameField (row : Row) (env : Env) (s : String) :
    (baseFields row env s).epicNameField = none := rfl

theorem baseFields_storyPointsField (row : Row) (env : Env) (s : String) :
    (baseFields row env s).storyPointsField = none := rfl

theorem baseFields_labels (row : Row) (env : Env) (s : String) :
    (baseFields row env s).labels = splitLabels (orTruthy (rowGet row "Labels") "") := rfl

theorem addStoryPoints_parent (row : Row) (sch : Schema) (f : Fields) :
    (addStoryPoints row sch f).parent = f.parent := by
  unfold addStoryPoints; split
  · split <;> rfl
  · rfl

theorem addStoryPoints_epicLinkField (row : Row) (sch : Schema) (f : Fields) :
    (addStoryPoints row sch f).epicLinkField = f.epicLinkField := by
  unfold addStoryPoints; split
  · split <;> rfl
  · rfl

theorem addStoryPoints_epicNameField (row : Row) (sch : Schema) (f : Fields) :
    (addStoryPoints row sch f).epicNameField = f.epicNameField := by
  unfold addStoryPoints; split
  · split <;> rfl
  · rfl

theorem addStoryPoints_labels (row : Row) (sch : Schema) (f : Fields) :
    (addStoryPoints row sch f).labels = f.labels := by
  unfold addStoryPoints; split
  · split <;> rfl
  · rfl

theorem addStoryPoints_sp (row : Row) (sch : Schema) (f : Fields)
    (hf : f.storyPointsField = none) :
    (addStoryPoints row sch f).storyPointsField =
      (if truthy (rowGet row "Story Points") && truthy sch.storyPointsId then
        jsNumber ((rowGet row "Story Points").getD "")
      else none) := by
  unfold addStoryPoints; split
  · split
    · next h => exact h.symm
    · next h => rw [hf, h]
  · exact hf

theorem addEpicName_parent (row : Row) (sch : Schema) (env : Env) (s : String) (f : Fields) :
    (addEpicName row sch env s f).parent = f.parent := by
  unfold addEpicName; split <;> rfl

theorem addEpicName_epicLinkField (row : Row) (sch : Schema) (env : Env) (s : String) (f : Fields) :
    (addEpicName row sch env s f).epicLinkField = f.epicLinkField := by
  unfold addEpicName; split <;> rfl

theorem addEpicName_labels (row : Row) (sch : Schema) (env : Env) (s : String) (f : Fields) :
    (addEpicName row sch env s f).labels = f.labels := by
  unfold addEpicName; split <;> rfl

theorem addEpicName_storyPointsField (row : Row) (sch : Schema) (env : Env) (s : String)
    (f : Fields) :
    (addEpicName row sch env s f).storyPointsField = f.storyPointsField := by
  unfold addEpicName; split <;> rfl

theorem addEpicName_name (row : Row) (sch : Schema) (env : Env) (s : String) (f : Fields)
    (hf : f.epicNameField = none) :
    (addEpicName row sch env s f).epicNameField =
      (if !isTeamManaged env && truthy sch.epicNameId then
        some (orTruthy ((rowGet row "Epic Name").map jsTrim) s)
      else none) := by
  unfold addEpicName; split
  · rfl
  · exact hf

theorem addSubtaskParent_epicLinkField (row : Row) (m : IdMap) (f : Fields) :
    (addSubtaskParent row m f).epicLinkField = f.epicLinkField := by
  simp only [addSubtaskParent]; split
  · split <;> rfl
  · rfl

theorem addSubtaskParent_labels (row : Row) (m : IdMap) (f : Fields) :
    (addSubtaskParent row m f).labels = f.labels := by
  simp only [addSubtaskParent]; split
  · split <;> rfl
  · rfl

theorem addSubtaskParent_storyPointsField (row : Row) (m : IdMap) (f : Fields) :
    (addSubtaskParent row m f).storyPointsField = f.storyPointsField := by
  simp only [addSubtaskParent]; split
  · split <;> rfl
  · rfl

theorem addSubtaskParent_epicNameField (row : Row) (m : IdMap) (f : Fields) :
    (addSubtaskParent row m f).epicNameField = f.epicNameField := by
  simp only [addSubtaskParent]; split
  · split <;> rfl
  · rfl

theorem addSubtaskParent_parent (row : Row) (m : IdMap) (f : Fields) :
    (addSubtaskParent row m f).parent =
      (if jsToLower (issueTypeOf row) = "sub-task" &&
          truthy ((rowGet row "Parent Id").map jsTrim) then
        match mget m (((rowGet row "Parent Id").map jsTrim).getD "") with
        | some p => some p.id
        | none => f.parent
      else f.parent) := by
  simp only [addSubtaskParent]; split
  · split <;> simp_all
  · rfl

theorem addEpicLink_labels (row : Row) (sch : Schema) (env : Env) (m : IdMap) (f : Fields) :
    (addEpicLink row sch env m f).labels = f.labels := by
  simp only [addEpicLink]; split
  · split
    · split
      · rfl
      · split <;> rfl
    · rfl
  · rfl

theorem addEpicLink_storyPointsField (row : Row) (sch : Schema) (env : Env) (m : IdMap)
    (f : Fields) :
    (addEpicLink row sch env m f).storyPointsField = f.storyPointsField := by
  simp only [addEpicLink]; split
  · split
    · split
      · rfl
      · split <;> rfl
    · rfl
  · rfl

theorem addEpicLink_epicNameField (row : Row) (sch : Schema) (env : Env) (m : IdMap)
    (f : Fields) :
    (addEpicLink row sch env m f).epicNameField = f.epicNameField := by
  simp only [addEpicLink]; split
  · split
    · split
      · rfl
      · split <;> rfl
    · rfl
  · rfl

theorem addEpicLink_found (row : Row) (sch : Schema) (env : Env) (m : IdMap) (f : Fields)
    (e : Created)
    (hel : truthy ((rowGet row "Epic Link").map jsTrim) = true)
    (hfound : mget m (((rowGet row "Epic Link").map jsTrim).getD "") = some e) :
    addEpicLink row sch env m f =
      (if isTeamManaged env then { f with parent := some e.id }
       else if truthy sch.epicLinkId then { f with epicLinkField := some e.key }
       else f) := by
  simp only [addEpicLink, hel, if_true, hfound]

theorem addEpicLink_missing (row : Row) (sch : Schema) (env : Env) (m : IdMap) (f : Fields)
    (hfound : mget m (((rowGet row "Epic Link").map jsTrim).getD "") = none) :
    addEpicLink row sch env m f = f := by
  simp only [addEpicLink]; split
  · rw [hfound]
  · rfl

theorem addEpicLink_blank (row : Row) (sch : Schema) (env : Env) (m : IdMap) (f : Fields)
    (hel : truthy ((rowGet row "Epic Link").map jsTrim) = false) :
    addEpicLink row sch env m f = f := by
  simp only [addEpicLink, hel]
  rfl

/-- The trimmed summary of a row (`""` both for a missing column and for a
blank value — exactly the failing cases of the mapper). -/
def summaryOf (row : Row) : String := jsTrim ((rowGet row "Summary").getD "")

theorem jsTrim_empty : jsTrim "" = "" := rfl

theorem buildFields_isOk (row : Row) (sch : Schema) (m : IdMap) (env : Env) :
    (buildFields row sch m env).isOk = true ↔ summaryOf row ≠ "" := by
  unfold buildFields summaryOf
  cases hR : rowGet row "Summary" with
  | none => simp [Except.isOk, Except.toBool, jsTrim_empty]
  | some v =>
    simp only [Option.map_some', Option.getD_some]
    split
    · simp_all [Except.isOk, Except.toBool]
    · simp_all [Except.isOk, Except.toBool]
      split
      · rfl
      · rename_i x a heq
        split at heq <;> cases heq

theorem buildFields_ok_core (row : Row) (sch : Schema) (m : IdMap) (env : Env) (f : Fields)
    (h : buildFields row sch m env = .ok f) :
    summaryOf row ≠ "" ∧
      f = (if jsToLower (issueTypeOf row) = "epic" then
             addEpicName row sch env (summaryOf row)
               (addStoryPoints row sch (baseFields row env (summaryOf row)))
           else
             addEpicLink row sch env m (addSubtaskParent row m
               (addStoryPoints row sch (baseFields row env (summaryOf row))))) := by
  unfold buildFields at h
  cases hR : rowGet row "Summary" with
  | none => rw [hR] at h; cases h
  | some v =>
    rw [hR] at h
    simp only [Option.map_some'] at h
    have hsum : summaryOf row = jsTrim v := by unfold summaryOf; rw [hR]; rfl
    rw [hsum]
    split at h
    · cases h
    · next hne =>
      constructor
      · exact hne
      · split at h <;> split <;> simp_all

theorem buildFields_ok_epic (row : Row) (sch : Schema) (m : IdMap) (env : Env) (f : Fields)
    (h : buildFields row sch m env = .ok f)
    (hepic : jsToLower (issueTypeOf row) = "epic") :
    f = addEpicName row sch env (summaryOf row)
          (addStoryPoints row sch (baseFields row env (summaryOf row))) := by
  have := (buildFields_ok_core row sch m env f h).2
  rwa [if_pos hepic] at this

theorem buildFields_ok_nonEpic (row : Row) (sch : Schema) (m : IdMap) (env : Env) (f : Fields)
    (h : buildFields row sch m env = .ok f)
    (hne : jsToLower (issueTypeOf row) ≠ "epic") :
    f = addEpicLink row sch env m (addSubtaskParent row m
          (addStoryPoints row sch (baseFields row env (summaryOf row)))) := by
  have := (buildFields_ok_core row sch m env f h).2
  rwa [if_neg hne] at this

theorem addEpicLink_parent_company (row : Row) (sch : Schema) (env : Env) (m : IdMap)
    (f : Fields) (htm : isTeamManaged env = false) :
    (addEpicLink row sch env m f).parent = f.parent := by
  simp only [addEpicLink]; split
  · split
    · rw [htm]
      simp only [Bool.false_eq_true, if_false]
      split <;> rfl
    · rfl
  · rfl

/-! ## Identifier map lemmas -/

theorem mget_mset_self (m : IdMap) (k : String) (v : Created) :
    mget (mset m k v) k = some v := by
  induction m with
  | nil => simp [mset, mget]
  | cons p rest ih =>
    obtain ⟨k0, v0⟩ := p
    by_cases h0 : k0 = k
    · simp [mset, h0, mget]
    · simp only [mset, if_neg h0, mget]
      exact ih

theorem mget_mset_ne (m : IdMap) (k k' : String) (v : Created) (h : k' ≠ k) :
    mget (mset m k v) k' = mget m k' := by
  induction m with
  | nil =>
    simp only [mset, mget]
    rw [if_neg (Ne.symm h)]
  | cons p rest ih =>
    obtain ⟨k0, v0⟩ := p
    by_cases h0 : k0 = k
    · simp only [mset, if_pos h0, mget]
      have hk0 : ¬(k0 = k') := by rw [h0]; exact Ne.symm h
      rw [if_neg (Ne.symm h), if_neg hk0]
    · simp only [mset, if_neg h0, mget]
      by_cases h1 : k0 = k'
      · rw [if_pos h1, if_pos h1]
      · rw [if_neg h1, if_neg h1, ih]

theorem mget_mset_stable (m : IdMap) (k k' : String) (v : Created)
    (h : mget m k' ≠ none) : mget (mset m k v) k' ≠ none := by
  by_cases hk : k' = k
  · subst hk; rw [mget_mset_self]; simp
  · rw [mget_mset_ne m k k' v hk]; exact h

/-! ## Claim C3 — Summary validation -/

/-- C3: the Field Mapper fails with a ValidationError if and only if the
row's Summary value is empty or whitespace-only after trimming; in
particular a row whose Summary trims non-empty and whose other columns are
all absent yields a payload without failing. -/
theorem buildFields_summary_validation (row : Row) (sch : Schema) (m : IdMap) (env : Env) :
    ((buildFields row sch m env).isOk = false ↔ summaryOf row = "") ∧
    ((∀ k, k ≠ "Summary" → rowGet row k = none) → summaryOf row ≠ "" →
      (buildFields row sch m env).isOk = true) := by
  constructor
  · rw [← Bool.not_eq_true, buildFields_isOk]
    exact not_ne_iff
  · intro _ hs
    exact (buildFields_isOk row sch m env).2 hs

/-- C3 witness: a row holding only a Summary that trims to `Fix bug`. -/
theorem buildFields_summary_validation_witness :
    (buildFields [("Summary", " Fix bug ")] ⟨none, none, none⟩ [] ⟨"PK", none⟩).isOk = true := by
  refine (buildFields_summary_validation [("Summary", " Fix bug ")] ⟨none, none, none⟩ []
    ⟨"PK", none⟩).2 ?_ ?_
  · intro k hk
    unfold rowGet
    rw [if_neg (Ne.symm hk)]
    rfl
  · decide

/-! ## Claim C4 — epic payloads -/

/-- C4: the payload of an epic row never carries a parent reference or the
epic-link field; in company-managed mode with a resolved epic-name field the
payload carries that field set to the trimmed Epic Name, falling back to the
summary when Epic Name is blank or absent; in team-managed mode the
epic-name field is never attached. -/
theorem buildFields_epic_payload (row : Row) (sch : Schema) (m : IdMap) (env : Env) (f : Fields)
    (h : buildFields row sch m env = .ok f)
    (hepic : jsToLower (issueTypeOf row) = "epic") :
    f.parent = none ∧ f.epicLinkField = none ∧
    (isTeamManaged env = false → truthy sch.epicNameId = true →
      f.epicNameField = some (orTruthy ((rowGet row "Epic Name").map jsTrim) (summaryOf row))) ∧
    (isTeamManaged env = true → f.epicNameField = none) := by
  have hf := buildFields_ok_epic row sch m env f h hepic
  subst hf
  refine ⟨?_, ?_, ?_, ?_⟩
  · rw [addEpicName_parent, addStoryPoints_parent, baseFields_parent]
  · rw [addEpicName_epicLinkField, addStoryPoints_epicLinkField, baseFields_epicLinkField]
  · intro htm hid
    rw [addEpicName_name _ _ _ _ _
      (by rw [addStoryPoints_epicNameField, baseFields_epicNameField])]
    rw [if_pos (by simp [htm, hid])]
  · intro htm
    rw [addEpicName_name _ _ _ _ _
      (by rw [addStoryPoints_epicNameField, baseFields_epicNameField])]
    rw [if_neg (by simp [htm])]

/-- C4 witness: an epic row with an Epic Link column and a resolved epic-name
field in company-managed mode gets the epic name, no parent, no epic link. -/
theorem buildFields_epic_payload_witness :
    (buildFields [("Issue Type", "Epic"), ("Summary", "Release"), ("Epic Link", "E0")]
        ⟨some "cfL", none, some "cfN"⟩ [("E0", ⟨"1", "K-1"⟩)] ⟨"PK", none⟩).map
      (fun f => (f.parent, f.epicLinkField, f.epicNameField)) =
    .ok (none, none, some "Release") := by
  have h : buildFields [("Issue Type", "Epic"), ("Summary", "Release"), ("Epic Link", "E0")]
      ⟨some "cfL", none, some "cfN"⟩ [("E0", ⟨"1", "K-1"⟩)] ⟨"PK", none⟩ =
      .ok { project := "PK", issuetype := "Epic", summary := "Release", labels := [],
            epicNameField := some "Release" } := by decide
  have h2 := buildFields_epic_payload _ _ _ _ _ h (by decide)
  rw [h]
  simp only [Except.map, h2.1, h2.2.1, h2.2.2.1 (by decide) (by decide)]

/-! ## Claim C8 — story points -/

/-- C8: the story-points field is attached iff the row's Story Points value
is non-empty (truthy), the schema has a resolved story-points field id and
the value parses as a number (`jsNumber` is not `NaN`); a non-parsing value
is silently skipped. -/
theorem buildFields_story_points (row : Row) (sch : Schema) (m : IdMap) (env : Env) (f : Fields)
    (h : buildFields row sch m env = .ok f) :
    f.storyPointsField =
      (if truthy (rowGet row "Story Points") && truthy sch.storyPointsId then
        jsNumber ((rowGet row "Story Points").getD "")
      else none) ∧
    (f.storyPointsField ≠ none ↔
      truthy (rowGet row "Story Points") = true ∧ truthy sch.storyPointsId = true ∧
      jsNumber ((rowGet row "Story Points").getD "") ≠ none) := by
  have hcore := (buildFields_ok_core row sch m env f h).2
  have hsp : f.storyPointsField =
      (addStoryPoints row sch (baseFields row env (summaryOf row))).storyPointsField := by
    rw [hcore]; split
    · rw [addEpicName_storyPointsField]
    · rw [addEpicLink_storyPointsField, addSubtaskParent_storyPointsField]
  rw [hsp, addStoryPoints_sp _ _ _ (baseFields_storyPointsField _ _ _)]
  refine ⟨rfl, ?_⟩
  by_cases hC : (truthy (rowGet row "Story Points") && truthy sch.storyPointsId) = true
  · rw [if_pos hC]
    simp only [Bool.and_eq_true] at hC
    simp [hC.1, hC.2]
  · rw [if_neg hC]
    simp only [Bool.and_eq_true] at hC
    constructor
    · intro hfalse
      exact (hfalse rfl).elim
    · rintro ⟨h1, h2, _⟩
      exact absurd ⟨h1, h2⟩ hC

/-- C8 witness: `Story Points = "abc"` with a resolved field id is silently
omitted; `"3"` is attached. -/
theorem buildFields_story_points_witness :
    (buildFields [("Summary", "s"), ("Story Points", "abc")] ⟨none, some "cfS", none⟩ []
        ⟨"PK", none⟩).map Fields.storyPointsField = .ok none := by
  have h : buildFields [("Summary", "s"), ("Story Points", "abc")] ⟨none, some "cfS", none⟩ []
      ⟨"PK", none⟩ =
      .ok { project := "PK", issuetype := "Task", summary := "s", labels := [] } := by decide
  have h2 := (buildFields_story_points _ _ _ _ _ h).1
  rw [h]
  simp only [Except.map, h2]

/-! ## Claim C7 — labels (corrected) -/

/-- C7 counterexample: the claim says labels split on any run of comma,
semicolon or whitespace; the code splits on `/[,; ]+/`, so a tab does not
separate labels: on `Labels = "a\tb"` the payload keeps one label `"a\tb"`
while the claim's split gives `["a", "b"]`. -/
theorem buildFields_labels_counterexample :
    (buildFields [("Summary", "s"), ("Labels", "a\tb")] ⟨none, none, none⟩ []
        ⟨"PK", none⟩).map Fields.labels = .ok ["a\tb"] ∧
    claimLabels "a\tb" = ["a", "b"] ∧
    ¬(["a\tb"] = (["a", "b"] : List String)) := by decide

/-- C7 (amended): the payload always carries a labels key, holding the Labels
column split on any run of comma, semicolon or **space** characters with
empty tokens discarded; an absent column yields the empty list. -/
theorem buildFields_labels_amended (row : Row) (sch : Schema) (m : IdMap) (env : Env)
    (f : Fields) (h : buildFields row sch m env = .ok f) :
    f.labels = splitLabels (orTruthy (rowGet row "Labels") "") ∧
    (rowGet row "Labels" = none → f.labels = []) := by
  have hcore := (buildFields_ok_core row sch m env f h).2
  have hl : f.labels = splitLabels (orTruthy (rowGet row "Labels") "") := by
    rw [hcore]; split
    · rw [addEpicName_labels, addStoryPoints_labels, baseFields_labels]
    · rw [addEpicLink_labels, addSubtaskParent_labels, addStoryPoints_labels, baseFields_labels]
  refine ⟨hl, fun hN => ?_⟩
  rw [hl, hN]
  decide

/-- C7 amended witness: labels split on commas, semicolons and spaces with
empty tokens dropped; a missing Labels column yields `[]`. -/
theorem buildFields_labels_amended_witness :
    splitLabels (orTruthy (rowGet [("Summary", "s"), ("Labels", " a,,b; c ")] "Labels") "") =
      ["a", "b", "c"] ∧
    (buildFields [("Summary", "s")] ⟨none, none, none⟩ [] ⟨"PK", none⟩).map Fields.labels =
      .ok [] := by
  constructor
  · decide
  · have h : buildFields [("Summary", "s")] ⟨none, none, none⟩ [] ⟨"PK", none⟩ =
        .ok { project := "PK", issuetype := "Task", summary := "s", labels := [] } := by decide
    have h2 := (buildFields_labels_amended _ _ _ _ _ h).2 (by decide)
    rw [h]
    simp only [Except.map, h2]

/-! ## Claim C10 — epic link overwrites the sub-task parent -/

/-- C10: in team-managed mode, a sub-task row whose Parent Id and Epic Link
both resolve in the identifier map (to distinct entries) ends up with exactly
one parent reference, the Epic Link target's destination id: the epic-link
rule runs after the sub-task rule and overwrites its parent. -/
theorem subtask_epic_link_overwrite (row : Row) (sch : Schema) (m : IdMap) (env : Env)
    (f : Fields) (p e : Created)
    (htm : isTeamManaged env = true)
    (hsub : jsToLower (issueTypeOf row) = "sub-task")
    (hpid : truthy ((rowGet row "Parent Id").map jsTrim) = true)
    (hpfound : mget m (((rowGet row "Parent Id").map jsTrim).getD "") = some p)
    (hel : truthy ((rowGet row "Epic Link").map jsTrim) = true)
    (hefound : mget m (((rowGet row "Epic Link").map jsTrim).getD "") = some e)
    (hpe : p ≠ e)
    (h : buildFields row sch m env = .ok f) :
    f.parent = some e.id := by
  have hf := buildFields_ok_nonEpic row sch m env f h (by rw [hsub]; decide)
  rw [hf, addEpicLink_found _ _ _ _ _ e hel hefound, if_pos htm]

/-- C10 witness: a sub-task under `P1` epic-linked to `E1` in team-managed
mode gets parent id `20`, the epic's id. -/
theorem subtask_epic_link_overwrite_witness :
    (buildFields
        [("Summary", "s"), ("Issue Type", "Sub-task"), ("Parent Id", "P1"), ("Epic Link", "E1")]
        ⟨none, none, none⟩ [("P1", ⟨"10", "K-10"⟩), ("E1", ⟨"20", "K-20"⟩)]
        ⟨"PK", some "true"⟩).map Fields.parent = .ok (some "20") := by
  have h : buildFields
      [("Summary", "s"), ("Issue Type", "Sub-task"), ("Parent Id", "P1"), ("Epic Link", "E1")]
      ⟨none, none, none⟩ [("P1", ⟨"10", "K-10"⟩), ("E1", ⟨"20", "K-20"⟩)] ⟨"PK", some "true"⟩ =
      .ok { project := "PK", issuetype := "Sub-task", summary := "s", labels := [],
            parent := some "20" } := by decide
  have h2 := subtask_epic_link_overwrite _ _ _ _ _ ⟨"10", "K-10"⟩ ⟨"20", "K-20"⟩
    (by decide) (by decide) (by decide) (by decide) (by decide) (by decide) (by decide) h
  rw [h]
  simp only [Except.map, h2]

/-! ## Claim C5 — epic-link resolution -/

/-- C5: for a non-epic row with a truthy Epic Link found in the identifier
map, team-managed mode attaches a parent reference with the destination id
and company-managed mode (with a resolved epic-link field) attaches the
epic-link field with the destination key; an Epic Link or a sub-task Parent
Id that is not in the map is silently omitted, and the mapper never fails
for these reasons (only for a blank Summary). -/
theorem buildFields_epic_link_resolution (row : Row) (sch : Schema) (m : IdMap) (env : Env) :
    (summaryOf row ≠ "" → (buildFields row sch m env).isOk = true) ∧
    (∀ f e, buildFields row sch m env = .ok f →
      jsToLower (issueTypeOf row) ≠ "epic" →
      truthy ((rowGet row "Epic Link").map jsTrim) = true →
      mget m (((rowGet row "Epic Link").map jsTrim).getD "") = some e →
      (isTeamManaged env = true → f.parent = some e.id) ∧
      (isTeamManaged env = false → truthy sch.epicLinkId = true →
        f.epicLinkField = some e.key)) ∧
    (∀ f, buildFields row sch m env = .ok f →
      jsToLower (issueTypeOf row) ≠ "epic" →
      mget m (((rowGet row "Epic Link").map jsTrim).getD "") = none →
      f.epicLinkField = none) ∧
    (∀ f, buildFields row sch m env = .ok f →
      jsToLower (issueTypeOf row) = "sub-task" →
      truthy ((rowGet row "Parent Id").map jsTrim) = true →
      mget m (((rowGet row "Parent Id").map jsTrim).getD "") = none →
      (truthy ((rowGet row "Epic Link").map jsTrim) = false ∨
       mget m (((rowGet row "Epic Link").map jsTrim).getD "") = none ∨
       isTeamManaged env = false) →
      f.parent = none) := by
  refine ⟨fun hs => (buildFields_isOk row sch m env).2 hs, ?_, ?_, ?_⟩
  · intro f e hok hne hel hfound
    have hf := buildFields_ok_nonEpic row sch m env f hok hne
    rw [hf, addEpicLink_found _ _ _ _ _ e hel hfound]
    constructor
    · intro htm
      rw [if_pos htm]
    · intro htm hid
      rw [if_neg (by simp [htm]), if_pos hid]
  · intro f hok hne hmiss
    have hf := buildFields_ok_nonEpic row sch m env f hok hne
    cases hbe : truthy ((rowGet row "Epic Link").map jsTrim) with
    | false =>
      rw [hf, addEpicLink_blank _ _ _ _ _ hbe, addSubtaskParent_epicLinkField,
          addStoryPoints_epicLinkField, baseFields_epicLinkField]
    | true =>
      rw [hf, addEpicLink_missing _ _ _ _ _ hmiss, addSubtaskParent_epicLinkField,
          addStoryPoints_epicLinkField, baseFields_epicLinkField]
  · intro f hok hsub hpid hmiss hcase
    have hne : jsToLower (issueTypeOf row) ≠ "epic" := by rw [hsub]; decide
    have hf := buildFields_ok_nonEpic row sch m env f hok hne
    have hg : (addSubtaskParent row m
        (addStoryPoints row sch (baseFields row env (summaryOf row)))).parent = none := by
      rw [addSubtaskParent_parent, if_pos (by simp [hsub, hpid]), hmiss,
          addStoryPoints_parent, baseFields_parent]
    rcases hcase with hbe | hmiss2 | htm
    · rw [hf, addEpicLink_blank _ _ _ _ _ hbe, hg]
    · rw [hf, addEpicLink_missing _ _ _ _ _ hmiss2, hg]
    · rw [hf, addEpicLink_parent_company _ _ _ _ _ htm, hg]

/-- C5 witness: the same row and map, team-managed attaches `parent.id = 77`,
company-managed attaches the epic-link field with key `K-77`; an unmapped
sub-task Parent Id leaves `parent` absent. -/
theorem buildFields_epic_link_resolution_witness :
    (buildFields [("Summary", "T"), ("Epic Link", "E1")] ⟨some "cfL", none, none⟩
        [("E1", ⟨"77", "K-77"⟩)] ⟨"PK", some "true"⟩).map Fields.parent = .ok (some "77") ∧
    (buildFields [("Summary", "T"), ("Epic Link", "E1")] ⟨some "cfL", none, none⟩
        [("E1", ⟨"77", "K-77"⟩)] ⟨"PK", none⟩).map Fields.epicLinkField = .ok (some "K-77") ∧
    (buildFields [("Summary", "T"), ("Issue Type", "Sub-task"), ("Parent Id", "NOPE")]
        ⟨some "cfL", none, none⟩ [("E1", ⟨"77", "K-77"⟩)] ⟨"PK", some "true"⟩).map
      Fields.parent = .ok none := by
  refine ⟨?_, ?_, ?_⟩
  · have h : buildFields [("Summary", "T"), ("Epic Link", "E1")] ⟨some "cfL", none, none⟩
        [("E1", ⟨"77", "K-77"⟩)] ⟨"PK", some "true"⟩ =
        .ok { project := "PK", issuetype := "Task", summary := "T", labels := [],
              parent := some "77" } := by decide
    have h2 := ((buildFields_epic_link_resolution [("Summary", "T"), ("Epic Link", "E1")]
        ⟨some "cfL", none, none⟩ [("E1", ⟨"77", "K-77"⟩)] ⟨"PK", some "true"⟩).2.1 _
        ⟨"77", "K-77"⟩ h (by decide) (by decide) (by decide)).1 (by decide)
    rw [h]
    simp only [Except.map, h2]
  · have h : buildFields [("Summary", "T"), ("Epic Link", "E1")] ⟨some "cfL", none, none⟩
        [("E1", ⟨"77", "K-77"⟩)] ⟨"PK", none⟩ =
        .ok { project := "PK", issuetype := "Task", summary := "T", labels := [],
              epicLinkField := some "K-77" } := by decide
    have h2 := ((buildFields_epic_link_resolution [("Summary", "T"), ("Epic Link", "E1")]
        ⟨some "cfL", none, none⟩ [("E1", ⟨"77", "K-77"⟩)] ⟨"PK", none⟩).2.1 _
        ⟨"77", "K-77"⟩ h (by decide) (by decide) (by decide)).2 (by decide) (by decide)
    rw [h]
    simp only [Except.map, h2]
  · have h : buildFields [("Summary", "T"), ("Issue Type", "Sub-task"), ("Parent Id", "NOPE")]
        ⟨some "cfL", none, none⟩ [("E1", ⟨"77", "K-77"⟩)] ⟨"PK", some "true"⟩ =
        .ok { project := "PK", issuetype := "Sub-task", summary := "T", labels := [] } := by
      decide
    have h2 := (buildFields_epic_link_resolution
        [("Summary", "T"), ("Issue Type", "Sub-task"), ("Parent Id", "NOPE")]
        ⟨some "cfL", none, none⟩ [("E1", ⟨"77", "K-77"⟩)] ⟨"PK", some "true"⟩).2.2.2 _
        h (by decide) (by decide) (by decide) (Or.inl (by decide))
    rw [h]
    simp only [Except.map, h2]

/-! ## Retry executor lemmas -/

theorem requestWithRetryGo_spec (fn : Nat → Resp) :
    ∀ fuel idx wait, 1 ≤ fuel →
      RetrySpec fn idx wait fuel (requestWithRetryGo fn idx wait fuel) := by
  intro fuel
  induction fuel with
  | zero => intro idx wait h; exact absurd h (by omega)
  | succ f ih =>
    intro idx wait _
    by_cases h1 : (fn idx).status < 400
    · have hout : requestWithRetryGo fn idx wait (f + 1) = ⟨.ok (fn idx), 1, []⟩ := by
        simp [requestWithRetryGo, h1]
      unfold RetrySpec
      rw [hout]
      dsimp only
      refine ⟨⟨le_refl 1, by omega⟩, rfl, ?_, ?_, ?_⟩
      · intro k hk; exact absurd hk (by omega)
      · intro r hr
        have : fn idx = r := by injection hr
        subst this
        exact ⟨rfl, h1⟩
      · intro e he; cases he
    · by_cases h2 : (decide (f = 0) || !retryableStatus (fn idx).status) = true
      · have hout : requestWithRetryGo fn idx wait (f + 1) =
            ⟨.error ⟨(fn idx).status, (fn idx).body⟩, 1, []⟩ := by
          simp only [requestWithRetryGo]
          rw [if_neg h1, if_pos h2]
        unfold RetrySpec
        rw [hout]
        dsimp only
        refine ⟨⟨le_refl 1, by omega⟩, rfl, ?_, ?_, ?_⟩
        · intro k hk; exact absurd hk (by omega)
        · intro r hr; cases hr
        · intro e he
          have : RequestError.mk (fn idx).status (fn idx).body = e := by injection he
          subst this
          rw [show idx + (1 - 1) = idx from by omega]
          refine ⟨rfl, rfl, by omega, ?_⟩
          simp only [Bool.or_eq_true, decide_eq_true_eq, Bool.not_eq_true'] at h2
          rcases h2 with hf0 | hnr
          · exact Or.inl (by omega)
          · exact Or.inr hnr
      · have hf1 : 1 ≤ f := by
          rcases Nat.eq_zero_or_pos f with h | h
          · exfalso; apply h2; simp [h]
          · exact h
        have hretry : retryableStatus (fn idx).status = true := by
          by_contra hc
          apply h2
          simp only [Bool.not_eq_true] at hc
          simp [hc]
        obtain ⟨⟨hA1, hA2⟩, hlen, hks, hok, herr⟩ := ih (idx + 1) (min (wait * 2) 15000) hf1
        set R := requestWithRetryGo fn (idx + 1) (min (wait * 2) 15000) f with hR
        have hout : requestWithRetryGo fn idx wait (f + 1) =
            ⟨R.result, R.attempts + 1, sleepFor (fn idx) wait :: R.sleeps⟩ := by
          rw [hR]
          simp only [requestWithRetryGo]
          rw [if_neg h1, if_neg h2]
        unfold RetrySpec
        rw [hout]
        dsimp only
        refine ⟨⟨by omega, by omega⟩, ?_, ?_, ?_, ?_⟩
        · simp only [List.length_cons, hlen]
          omega
        · intro k hk
          cases k with
          | zero =>
            refine ⟨by simp only [Nat.add_zero]; omega, ?_, rfl⟩
            simp only [Nat.add_zero]
            exact hretry
          | succ k =>
            obtain ⟨hk1, hk2, hk3⟩ := hks k (by omega)
            have hidx : idx + (k + 1) = idx + 1 + k := by omega
            rw [hidx]
            exact ⟨hk1, hk2, hk3⟩
        · intro r hr
          obtain ⟨hr1, hr2⟩ := hok r hr
          rw [Nat.add_sub_cancel]
          have hidx : idx + R.attempts = idx + 1 + (R.attempts - 1) := by omega
          rw [hidx]
          exact ⟨hr1, hr2⟩
        · intro e he
          obtain ⟨he1, he2, he3, he4⟩ := herr e he
          rw [Nat.add_sub_cancel]
          have hidx : idx + R.attempts = idx + 1 + (R.attempts - 1) := by omega
          rw [hidx]
          refine ⟨he1, he2, he3, ?_⟩
          rcases he4 with h | h
          · exact Or.inl (by omega)
          · exact Or.inr h

theorem waitSeq_pow (j k : Nat) :
    waitSeq (min (1000 * 2 ^ j) 15000) k = min (1000 * 2 ^ (j + k)) 15000 := by
  induction k generalizing j with
  | zero => rw [waitSeq, Nat.add_zero]
  | succ k ih =>
    rw [waitSeq]
    have h2 : min (min (1000 * 2 ^ j) 15000 * 2) 15000 = min (1000 * 2 ^ (j + 1)) 15000 := by
      have hp : 1000 * 2 ^ (j + 1) = 1000 * 2 ^ j * 2 := by ring
      rw [hp]
      omega
    rw [h2, ih (j + 1)]
    rw [show j + 1 + k = j + (k + 1) from by omega]

theorem waitSeq_1000 (k : Nat) : waitSeq 1000 k = min (1000 * 2 ^ k) 15000 := by
  have h0 : min (1000 * 2 ^ 0) 15000 = 1000 := by norm_num
  have hp := waitSeq_pow 0 k
  rw [h0] at hp
  rw [hp, Nat.zero_add]

theorem retryableStatus_iff (s : Nat) : retryableStatus s = true ↔ (s = 429 ∨ 500 ≤ s) := by
  simp [retryableStatus]

/-! ## Claim C2 — the retry policy -/

/-- C2: the executor makes between 1 and 5 attempts; every non-final attempt
saw a status ≥ 400 that was 429 or ≥ 500 and slept the numeric Retry-After
value times 1000 when present, else the internal timer `min(1000·2^k, 15000)`
(1000 ms doubling, capped); a success is the first status < 400, returned
immediately; a failure embeds the last status and body, that status being
≥ 400 and either non-retryable (a 4xx other than 429, failed immediately) or
the fifth, budget-exhausting attempt. -/
theorem requestWithRetry_policy (fn : Nat → Resp) :
    (1 ≤ (requestWithRetry fn).attempts ∧ (requestWithRetry fn).attempts ≤ 5) ∧
    (requestWithRetry fn).sleeps.length = (requestWithRetry fn).attempts - 1 ∧
    (∀ k, k + 1 < (requestWithRetry fn).attempts →
      400 ≤ (fn k).status ∧ ((fn k).status = 429 ∨ 500 ≤ (fn k).status) ∧
      (requestWithRetry fn).sleeps.get? k =
        some (match (fn k).retryAfter.bind jsNumber with
              | some n => n.mulNat 1000
              | none => JSNum.val (min (1000 * 2 ^ k) 15000))) ∧
    (∀ r, (requestWithRetry fn).result = .ok r →
      r = fn ((requestWithRetry fn).attempts - 1) ∧ r.status < 400) ∧
    (∀ e, (requestWithRetry fn).result = .error e →
      e.status = (fn ((requestWithRetry fn).attempts - 1)).status ∧
      e.body = (fn ((requestWithRetry fn).attempts - 1)).body ∧
      400 ≤ (fn ((requestWithRetry fn).attempts - 1)).status ∧
      ((requestWithRetry fn).attempts = 5 ∨
       ¬((fn ((requestWithRetry fn).attempts - 1)).status = 429 ∨
         500 ≤ (fn ((requestWithRetry fn).attempts - 1)).status))) := by
  obtain ⟨hA, hlen, hks, hok, herr⟩ := requestWithRetryGo_spec fn 5 0 1000 (by omega)
  unfold requestWithRetry
  refine ⟨hA, hlen, ?_, ?_, ?_⟩
  · intro k hk
    obtain ⟨h1, h2, h3⟩ := hks k hk
    rw [Nat.zero_add] at h1 h2 h3
    refine ⟨h1, (retryableStatus_iff _).1 h2, ?_⟩
    rw [h3, waitSeq_1000]
    cases hra : (fn k).retryAfter.bind jsNumber <;> simp [sleepFor, hra]
  · intro r hr
    obtain ⟨h1, h2⟩ := hok r hr
    rw [Nat.zero_add] at h1
    exact ⟨h1, h2⟩
  · intro e he
    obtain ⟨h1, h2, h3, h4⟩ := herr e he
    rw [Nat.zero_add] at h1 h2 h3
    refine ⟨h1, h2, h3, ?_⟩
    rcases h4 with h | h
    · exact Or.inl h
    · rw [Nat.zero_add] at h
      refine Or.inr fun hcon => ?_
      have hc2 := (retryableStatus_iff _).2 hcon
      rw [h] at hc2
      cases hc2

/-- C2 witness: a 503, then a 429 carrying `Retry-After: 2`, then a 201 —
three attempts, a 1000 ms backoff sleep then a 2000 ms header-directed sleep,
and the 201 response returned. -/
theorem requestWithRetry_policy_witness :
    (requestWithRetry fnRetrySeq).sleeps.get? 1 = some (JSNum.val 2000) ∧
    (requestWithRetry fnRetrySeq).sleeps.get? 0 = some (JSNum.val 1000) ∧
    (requestWithRetry fnRetrySeq).result = .ok ⟨201, none, "created"⟩ := by
  have h := requestWithRetry_policy fnRetrySeq
  refine ⟨?_, ?_, ?_⟩
  · have h3 := (h.2.2.1 1 (by decide)).2.2
    rw [h3]
    show some ((JSNum.val 2).mulNat 1000) = some (JSNum.val 2000)
    decide
  · have h3 := (h.2.2.1 0 (by decide)).2.2
    rw [h3]
    show some (JSNum.val (min (1000 * 2 ^ 0) 15000)) = some (JSNum.val 1000)
    norm_num
  · decide

/-! ## Orchestrator pass lemmas -/

theorem mgetOr_cons (u : TraceEntry) (l : List TraceEntry) (m : IdMap) (k : String) :
    mgetOr (u :: l) m k = mgetOr l (mset m (localId u.row) u.created) k := by
  unfold mgetOr
  simp only [lastEntryFor]
  cases hL : lastEntryFor l k with
  | some v => rfl
  | none =>
    dsimp only
    by_cases hk : localId u.row = k
    · rw [if_pos hk]
      subst hk
      rw [mget_mset_self]
    · rw [if_neg hk, mget_mset_ne m (localId u.row) k u.created (fun h2 => hk h2.symm)]

theorem lastEntryFor_append (l1 l2 : List TraceEntry) (k : String) :
    lastEntryFor (l1 ++ l2) k =
      (match lastEntryFor l2 k with
       | some u => some u
       | none => lastEntryFor l1 k) := by
  induction l1 with
  | nil =>
    simp only [List.nil_append]
    cases lastEntryFor l2 k <;> rfl
  | cons a l1' ih =>
    show (match lastEntryFor (l1' ++ l2) k with
          | some u => some u
          | none => if localId a.row = k then some a else none) = _
    rw [ih]
    cases hL2 : lastEntryFor l2 k with
    | some u => rfl
    | none => rfl

theorem mgetOr_append (l1 l2 : List TraceEntry) (m : IdMap) (k : String) :
    mgetOr (l1 ++ l2) m k =
      (match lastEntryFor l2 k with
       | some u => some u.created
       | none => mgetOr l1 m k) := by
  unfold mgetOr
  rw [lastEntryFor_append]
  cases lastEntryFor l2 k <;> rfl

theorem lastEntryFor_mem (l : List TraceEntry) (k : String) (u : TraceEntry)
    (h : lastEntryFor l k = some u) : u ∈ l := by
  induction l with
  | nil => cases h
  | cons a l' ih =>
    simp only [lastEntryFor] at h
    cases hL : lastEntryFor l' k with
    | some v =>
      rw [hL] at h
      injection h with h2
      subst h2
      exact List.mem_cons_of_mem a (ih hL)
    | none =>
      rw [hL] at h
      dsimp only at h
      split at h
      · injection h with h2
        subst h2
        exact List.mem_cons_self a l'
      · cases h

theorem runPassGo_spec (phase : Nat) (pred : Row → Bool) (sch : Schema) (env : Env)
    (creates : Nat → Except RequestError Created) :
    ∀ (rows : List Row) (m : IdMap) (n : Nat) (mf : IdMap) (nf : Nat) (tr : List TraceEntry),
      runPassGo phase pred sch env creates rows m n = .ok (mf, nf, tr) →
      (tr.map (fun t => t.row) = rows.filter pred) ∧
      (∀ t ∈ tr, t.phase = phase) ∧
      (∀ k, mget m k ≠ none → mget mf k ≠ none) ∧
      (∀ t ∈ tr, ∀ k, mget m k ≠ none → mget t.mapAtBuild k ≠ none) ∧
      (∀ r ∈ rows, pred r = true → mget mf (localId r) ≠ none) ∧
      (∀ t ∈ tr, buildFields t.row sch t.mapAtBuild env = .ok t.payload) ∧
      (∀ t ∈ tr, t.mapAfter = mset t.mapAtBuild (localId t.row) t.created) ∧
      (∀ k, mget mf k = mgetOr tr m k) ∧
      (∀ tra t trb, tr = tra ++ t :: trb → ∀ k, mget t.mapAtBuild k = mgetOr tra m k) := by
  intro rows
  induction rows with
  | nil =>
    intro m n mf nf tr h
    simp only [runPassGo, Except.ok.injEq, Prod.mk.injEq] at h
    obtain ⟨hm, _, htr⟩ := h
    subst hm
    subst htr
    refine ⟨rfl, ?_, fun k hk => hk, ?_, ?_, ?_, ?_, fun k => rfl, ?_⟩
    · simp
    · simp
    · simp
    · simp
    · simp
    · intro tra t trb h2 k
      cases tra <;> simp at h2
  | cons r rest ih =>
    intro m n mf nf tr h
    simp only [runPassGo] at h
    by_cases hp : pred r = true
    · rw [if_pos hp] at h
      cases hbf : buildFields r sch m env with
      | error e => rw [hbf] at h; cases h
      | ok f =>
        rw [hbf] at h
        dsimp only at h
        cases hc : creates n with
        | error e => rw [hc] at h; cases h
        | ok c =>
          rw [hc] at h
          dsimp only at h
          cases hrec : runPassGo phase pred sch env creates rest (mset m (localId r) c)
              (n + 1) with
          | error e => rw [hrec] at h; cases h
          | ok res =>
            obtain ⟨m2, n2, tr2⟩ := res
            rw [hrec] at h
            dsimp only at h
            simp only [Except.ok.injEq, Prod.mk.injEq] at h
            obtain ⟨hm, _, htr⟩ := h
            subst hm
            subst htr
            obtain ⟨ih1, ih2, ih3, ih4, ih5, ih6, ih7, ih8, ih9⟩ :=
              ih (mset m (localId r) c) (n + 1) m2 n2 tr2 hrec
            refine ⟨?_, ?_, ?_, ?_, ?_, ?_, ?_, ?_, ?_⟩
            · simp only [List.map_cons, ih1, List.filter_cons, hp, if_true]
            · intro t ht
              rcases List.mem_cons.1 ht with rfl | ht'
              · rfl
              · exact ih2 t ht'
            · intro k hk
              exact ih3 k (mget_mset_stable m (localId r) k c hk)
            · intro t ht k hk
              rcases List.mem_cons.1 ht with rfl | ht'
              · exact hk
              · exact ih4 t ht' k (mget_mset_stable m (localId r) k c hk)
            · intro r' hr' hpr'
              rcases List.mem_cons.1 hr' with rfl | hr''
              · apply ih3
                rw [mget_mset_self]
                simp
              · exact ih5 r' hr'' hpr'
            · intro t ht
              rcases List.mem_cons.1 ht with rfl | ht'
              · exact hbf
              · exact ih6 t ht'
            · intro t ht
              rcases List.mem_cons.1 ht with rfl | ht'
              · rfl
              · exact ih7 t ht'
            · intro k
              rw [mgetOr_cons]
              exact ih8 k
            · intro tra t trb htr2 k
              cases tra with
              | nil =>
                injection htr2 with h1 h2
                subst h1
                rfl
              | cons a tra' =>
                injection htr2 with h1 h2
                subst h1
                rw [mgetOr_cons]
                exact ih9 tra' t trb h2 k
    · rw [if_neg hp] at h
      obtain ⟨ih1, ih2, ih3, ih4, ih5, ih6, ih7, ih8, ih9⟩ := ih m n mf nf tr h
      refine ⟨?_, ih2, ih3, ih4, ?_, ih6, ih7, ih8, ih9⟩
      · rw [ih1, List.filter_cons]
        simp [hp]
      · intro r' hr' hpr'
        rcases List.mem_cons.1 hr' with rfl | hr''
        · exact absurd hpr' hp
        · exact ih5 r' hr'' hpr'

theorem trace_map_phase_row (tr : List TraceEntry) (phase : Nat) (rows' : List Row)
    (hrow : tr.map (fun t => t.row) = rows') (hph : ∀ t ∈ tr, t.phase = phase) :
    tr.map (fun t => (t.phase, t.row)) = rows'.map (fun r => (phase, r)) := by
  subst hrow
  induction tr with
  | nil => rfl
  | cons t tr ih =>
    simp only [List.map_cons, List.cons.injEq]
    constructor
    · rw [hph t (List.mem_cons_self t tr)]
    · exact ih fun t' ht' => hph t' (List.mem_cons_of_mem t ht')

theorem buildFields_links_present (row : Row) (sch : Schema) (m : IdMap) (env : Env)
    (f : Fields) (e : Created)
    (h : buildFields row sch m env = .ok f)
    (hne : jsToLower (issueTypeOf row) ≠ "epic")
    (hel : truthy ((rowGet row "Epic Link").map jsTrim) = true)
    (hfound : mget m (((rowGet row "Epic Link").map jsTrim).getD "") = some e) :
    (isTeamManaged env = true → f.parent = some e.id) ∧
    (isTeamManaged env = false → truthy sch.epicLinkId = true →
      f.epicLinkField = some e.key) := by
  have hf := buildFields_ok_nonEpic row sch m env f h hne
  rw [hf, addEpicLink_found _ _ _ _ _ e hel hfound]
  constructor
  · intro htm
    rw [if_pos htm]
  · intro htm hid
    rw [if_neg (by simp [htm]), if_pos hid]

/-! ## Claim C1 — the two-pass ordering (corrected) -/

/-- C1 counterexample: the claim's unconditional conclusion — "the non-epic
payload references the epic created in pass 1" — fails on the code.  Run 1
(`rowsCollide`, company-managed, epic-link field resolved): the epic created
in pass 1 is `{10000, PK-0}`, but the task whose Summary is also `E1` is
created second and overwrites the map entry, so the task naming `E1` in Epic
Link gets `epicLinkField = "PK-1"` — the colliding task's key, not the
epic's — and no parent.  Run 2 (`rowsPadded`): the row with raw Issue Type
`" Epic "` does not case-insensitively equal `"epic"`, is created in pass 2
and names the epic's local id in Epic Link, yet its payload carries neither
a parent nor the epic-link field (the mapper trims its Issue Type and takes
the epic branch). -/
theorem main_two_pass_ordering_counterexample :
    (runMain rowsCollide ⟨some "cfL", none, some "cfN"⟩ ⟨"PK", none⟩ createsOk).map
        (fun res => res.trace.map fun t =>
          (t.phase, t.created, t.payload.parent, t.payload.epicLinkField)) =
      .ok [(1, ⟨"10000", "PK-0"⟩, none, none),
           (2, ⟨"10001", "PK-1"⟩, none, none),
           (2, ⟨"10002", "PK-2"⟩, none, some "PK-1")] ∧
    ¬((some "PK-1" : Option String) = some "PK-0") ∧
    (runMain rowsPadded ⟨some "cfL", none, some "cfN"⟩ ⟨"PK", none⟩ createsOk).map
        (fun res => res.trace.map fun t =>
          (t.phase, t.payload.parent, t.payload.epicLinkField)) =
      .ok [(1, none, none), (2, none, none)] := by
  refine ⟨by decide, by decide, by decide⟩

/-- C1 (amended): a successful run's trace is exactly pass 1 (the rows whose
raw Issue Type lowercases to `epic`, in source order) followed by pass 2
(the remaining rows, in source order); every epic row's local id is in the
identifier map before any pass-2 payload is built; whenever a payload is
built, the map holds under each local id the `{id, key}` of the last
previously created row recorded under it (last write wins, `mgetOr` over the
preceding trace); a pass-2 row whose trimmed Issue Type is not `epic` and
whose trimmed Epic Link is a non-empty id mapped to `x` at build time gets
`parent = x.id` in team-managed mode and `epicLinkField = x.key` in
company-managed mode with the field resolved; and when the last row recorded
under that id is a pass-1 entry — no later collision — that entry is an epic
row and the payload references exactly the epic created in pass 1, by its
destination id (team-managed) or key (company-managed). -/
theorem main_two_pass_ordering (rows : List Row) (sch : Schema) (env : Env)
    (creates : Nat → Except RequestError Created) (res : RunResult)
    (h : runMain rows sch env creates = .ok res) :
    (res.trace.map (fun t => (t.phase, t.row)) =
      (rows.filter isEpicRow).map (fun r => (1, r)) ++
      (rows.filter (fun r => !isEpicRow r)).map (fun r => (2, r))) ∧
    (∀ t ∈ res.trace, t.phase = 2 → ∀ e ∈ rows, isEpicRow e = true →
      mget t.mapAtBuild (localId e) ≠ none) ∧
    (∀ tra t trb, res.trace = tra ++ t :: trb → ∀ k,
      mget t.mapAtBuild k = mgetOr tra [] k) ∧
    (∀ t ∈ res.trace, t.phase = 2 → jsToLower (issueTypeOf t.row) ≠ "epic" →
      ∀ k x, (rowGet t.row "Epic Link").map jsTrim = some k → k ≠ "" →
      mget t.mapAtBuild k = some x →
      (isTeamManaged env = true → t.payload.parent = some x.id) ∧
      (isTeamManaged env = false → truthy sch.epicLinkId = true →
        t.payload.epicLinkField = some x.key)) ∧
    (∀ tra t trb, res.trace = tra ++ t :: trb → t.phase = 2 →
      jsToLower (issueTypeOf t.row) ≠ "epic" →
      ∀ k u, (rowGet t.row "Epic Link").map jsTrim = some k → k ≠ "" →
      lastEntryFor tra k = some u → u.phase = 1 →
      isEpicRow u.row = true ∧
      (isTeamManaged env = true → t.payload.parent = some u.created.id) ∧
      (isTeamManaged env = false → truthy sch.epicLinkId = true →
        t.payload.epicLinkField = some u.created.key)) := by
  unfold runMain at h
  cases hp1 : runPassGo 1 isEpicRow sch env creates rows [] 0 with
  | error e => rw [hp1] at h; cases h
  | ok res1 =>
    obtain ⟨m1, n1, tr1⟩ := res1
    rw [hp1] at h
    dsimp only at h
    cases hp2 : runPassGo 2 (fun r => !isEpicRow r) sch env creates rows m1 n1 with
    | error e => rw [hp2] at h; cases h
    | ok res2 =>
      obtain ⟨m2, n2, tr2⟩ := res2
      rw [hp2] at h
      dsimp only at h
      injection h with h2
      subst h2
      obtain ⟨p11, p12, p13, p14, p15, p16, p17, p18, p19⟩ :=
        runPassGo_spec 1 isEpicRow sch env creates rows [] 0 m1 n1 tr1 hp1
      obtain ⟨p21, p22, p23, p24, p25, p26, p27, p28, p29⟩ :=
        runPassGo_spec 2 _ sch env creates rows m1 n1 m2 n2 tr2 hp2
      have hpresent : ∀ t ∈ tr2, ∀ e ∈ rows, isEpicRow e = true →
          mget t.mapAtBuild (localId e) ≠ none := by
        intro t ht e he hee
        exact p24 t ht (localId e) (p15 e he hee)
      have hmem2 : ∀ t, t ∈ tr1 ++ tr2 → t.phase = 2 → t ∈ tr2 := by
        intro t ht hph
        rcases List.mem_append.1 ht with ht1 | ht2
        · rw [p12 t ht1] at hph
          exact absurd hph (by decide)
        · exact ht2
      have hval : ∀ tra t trb, tr1 ++ tr2 = tra ++ t :: trb → ∀ k,
          mget t.mapAtBuild k = mgetOr tra [] k := by
        intro tra t trb htr k
        rcases List.append_eq_append_iff.1 htr with ⟨a2, ha1, ha2⟩ | ⟨c2, hc1, hc2⟩
        · subst ha1
          rw [p29 a2 t trb ha2 k, mgetOr_append]
          unfold mgetOr
          cases lastEntryFor a2 k with
          | some u => rfl
          | none => exact p18 k
        · cases c2 with
          | nil =>
            rw [List.nil_append] at hc2
            rw [List.append_nil] at hc1
            subst hc1
            rw [p29 [] t trb hc2.symm k]
            exact p18 k
          | cons t2 c2' =>
            injection hc2 with hh1 hh2
            subst hh1
            exact p19 tra t c2' hc1 k
      have hlink : ∀ t ∈ tr2, jsToLower (issueTypeOf t.row) ≠ "epic" →
          ∀ k x, (rowGet t.row "Epic Link").map jsTrim = some k → k ≠ "" →
          mget t.mapAtBuild k = some x →
          (isTeamManaged env = true → t.payload.parent = some x.id) ∧
          (isTeamManaged env = false → truthy sch.epicLinkId = true →
            t.payload.epicLinkField = some x.key) := by
        intro t ht2 hne k x hEL hk hx
        have htruthy : truthy ((rowGet t.row "Epic Link").map jsTrim) = true := by
          rw [hEL]
          simp [truthy, hk]
        have hfound :
            mget t.mapAtBuild (((rowGet t.row "Epic Link").map jsTrim).getD "") = some x := by
          rw [hEL]
          exact hx
        exact buildFields_links_present t.row sch t.mapAtBuild env t.payload x
          (p26 t ht2) hne htruthy hfound
      refine ⟨?_, ?_, ?_, ?_, ?_⟩
      · dsimp only
        rw [List.map_append, trace_map_phase_row tr1 1 _ p11 p12,
            trace_map_phase_row tr2 2 _ p21 p22]
      · intro t ht hph e he hee
        exact hpresent t (hmem2 t ht hph) e he hee
      · intro tra t trb htr k
        dsimp only at htr
        exact hval tra t trb htr k
      · intro t ht hph hne k x hEL hk hx
        exact hlink t (hmem2 t ht hph) hne k x hEL hk hx
      · intro tra t trb htr hph hne k u hEL hk hlast hu1
        dsimp only at htr
        have ht : t ∈ tr1 ++ tr2 := by
          rw [htr]
          exact List.mem_append_right tra (List.mem_cons_self t trb)
        have hu : u ∈ tr1 ++ tr2 := by
          rw [htr]
          exact List.mem_append_left _ (lastEntryFor_mem tra k u hlast)
        have hu1' : u ∈ tr1 := by
          rcases List.mem_append.1 hu with h1 | h2
          · exact h1
          · rw [p22 u h2] at hu1
            exact absurd hu1 (by decide)
        have hepic : isEpicRow u.row = true := by
          have hr : u.row ∈ tr1.map (fun v => v.row) :=
            List.mem_map_of_mem (fun v => v.row) hu1'
          rw [p11] at hr
          exact (List.mem_filter.1 hr).2
        have hx : mget t.mapAtBuild k = some u.created := by
          rw [hval tra t trb htr k]
          unfold mgetOr
          rw [hlast]
        exact ⟨hepic, (hlink t (hmem2 t ht hph) hne k u.created hEL hk hx).1,
          (hlink t (hmem2 t ht hph) hne k u.created hEL hk hx).2⟩

/-! ## Claim C9 — the identifier map -/

/-- C9: every successfully created row is recorded under its local id (the
row's non-empty Issue Id, else its Summary, trimmed — `localId` agrees with
the spec's description `localIdSpec`); recording is a `Map.set`: the key now
maps to the new `{id, key}` (last write wins) and every other key is
untouched; and a successful run's report serializes exactly the final map. -/
theorem identifier_map_semantics :
    (∀ r : Row, localId r = localIdSpec r) ∧
    (∀ (m : IdMap) (k : String) (v : Created), mget (mset m k v) k = some v) ∧
    (∀ (m : IdMap) (k k' : String) (v : Created), k' ≠ k →
      mget (mset m k v) k' = mget m k') ∧
    (∀ (rows : List Row) (sch : Schema) (env : Env)
      (creates : Nat → Except RequestError Created) (res : RunResult),
      runMain rows sch env creates = .ok res →
      res.report = res.finalMap ∧
      ∀ t ∈ res.trace, t.mapAfter = mset t.mapAtBuild (localId t.row) t.created ∧
        mget t.mapAfter (localId t.row) = some t.created) := by
  refine ⟨?_, mget_mset_self, fun m k k' v h => mget_mset_ne m k k' v h, ?_⟩
  · intro r
    unfold localId localIdSpec orTruthy
    cases hI : rowGet r "Issue Id" with
    | none => simp
    | some s =>
      by_cases hs : s = ""
      · subst hs
        simp
      · simp [hs]
  · intro rows sch env creates res h
    unfold runMain at h
    cases hp1 : runPassGo 1 isEpicRow sch env creates rows [] 0 with
    | error e => rw [hp1] at h; cases h
    | ok res1 =>
      obtain ⟨m1, n1, tr1⟩ := res1
      rw [hp1] at h
      dsimp only at h
      cases hp2 : runPassGo 2 (fun r => !isEpicRow r) sch env creates rows m1 n1 with
      | error e => rw [hp2] at h; cases h
      | ok res2 =>
        obtain ⟨m2, n2, tr2⟩ := res2
        rw [hp2] at h
        dsimp only at h
        injection h with h2
        subst h2
        obtain ⟨_, _, _, _, _, _, p17, _, _⟩ :=
          runPassGo_spec 1 isEpicRow sch env creates rows [] 0 m1 n1 tr1 hp1
        obtain ⟨_, _, _, _, _, _, p27, _, _⟩ :=
          runPassGo_spec 2 _ sch env creates rows m1 n1 m2 n2 tr2 hp2
        refine ⟨rfl, ?_⟩
        intro t ht
        rcases List.mem_append.1 ht with ht1 | ht2
        · have hA := p17 t ht1
          exact ⟨hA, by rw [hA, mget_mset_self]⟩
        · have hA := p27 t ht2
          exact ⟨hA, by rw [hA, mget_mset_self]⟩

/-- C1 witness (amended claim): the epic/task input from the spec's
end-to-end scenario — pass 1 creates the epic, pass 2 the task, no local id
collides, and by the last-writer clause the task's payload carries the
epic-link field with the pass-1 epic's key `PK-0`. -/
theorem main_two_pass_ordering_witness :
    (runMain rowsEpicTask ⟨some "cf1", none, some "cf3"⟩ ⟨"PK", none⟩ createsOk).map
        (fun res => res.trace.map fun t => (t.phase, t.row)) =
      .ok [(1, [("Issue Id", "E1"), ("Issue Type", "Epic"), ("Summary", "Release")]),
           (2, [("Issue Type", "Task"), ("Summary", "Fix bug"), ("Epic Link", "E1")])] ∧
    (runMain rowsEpicTask ⟨some "cf1", none, some "cf3"⟩ ⟨"PK", none⟩ createsOk).map
        (fun res => res.trace.map fun t => t.payload.epicLinkField) =
      .ok [none, some "PK-0"] := by
  have hrun : runMain rowsEpicTask ⟨some "cf1", none, some "cf3"⟩ ⟨"PK", none⟩ createsOk =
      .ok { finalMap := [("E1", ⟨"10000", "PK-0"⟩), ("Fix bug", ⟨"10001", "PK-1"⟩)],
            report := [("E1", ⟨"10000", "PK-0"⟩), ("Fix bug", ⟨"10001", "PK-1"⟩)],
            trace := [
              { phase := 1,
                row := [("Issue Id", "E1"), ("Issue Type", "Epic"), ("Summary", "Release")],
                mapAtBuild := [],
                payload := { project := "PK", issuetype := "Epic", summary := "Release",
                             labels := [], epicNameField := some "Release" },
                created := ⟨"10000", "PK-0"⟩,
                mapAfter := [("E1", ⟨"10000", "PK-0"⟩)] },
              { phase := 2,
                row := [("Issue Type", "Task"), ("Summary", "Fix bug"), ("Epic Link", "E1")],
                mapAtBuild := [("E1", ⟨"10000", "PK-0"⟩)],
                payload := { project := "PK", issuetype := "Task", summary := "Fix bug",
                             labels := [], epicLinkField := some "PK-0" },
                created := ⟨"10001", "PK-1"⟩,
                mapAfter := [("E1", ⟨"10000", "PK-0"⟩),
                             ("Fix bug", ⟨"10001", "PK-1"⟩)] }] } := by decide
  have h := main_two_pass_ordering rowsEpicTask ⟨some "cf1", none, some "cf3"⟩ ⟨"PK", none⟩
    createsOk _ hrun
  constructor
  · rw [hrun]
    simp only [Except.map]
    rw [h.1]
    decide
  · rw [hrun]
    simp only [Except.map]
    have h5 := (h.2.2.2.2
      [{ phase := 1,
                row := [("Issue Id", "E1"), ("Issue Type", "Epic"), ("Summary", "Release")],
                mapAtBuild := [],
                payload := { project := "PK", issuetype := "Epic", summary := "Release",
                             labels := [], epicNameField := some "Release" },
                created := ⟨"10000", "PK-0"⟩,
                mapAfter := [("E1", ⟨"10000", "PK-0"⟩)] }]
      { phase := 2,
                row := [("Issue Type", "Task"), ("Summary", "Fix bug"), ("Epic Link", "E1")],
                mapAtBuild := [("E1", ⟨"10000", "PK-0"⟩)],
                payload := { project := "PK", issuetype := "Task", summary := "Fix bug",
                             labels := [], epicLinkField := some "PK-0" },
                created := ⟨"10001", "PK-1"⟩,
                mapAfter := [("E1", ⟨"10000", "PK-0"⟩),
                             ("Fix bug", ⟨"10001", "PK-1"⟩)] }
      [] rfl rfl (by decide) "E1"
      { phase := 1,
                row := [("Issue Id", "E1"), ("Issue Type", "Epic"), ("Summary", "Release")],
                mapAtBuild := [],
                payload := { project := "PK", issuetype := "Epic", summary := "Release",
                             labels := [], epicNameField := some "Release" },
                created := ⟨"10000", "PK-0"⟩,
                mapAfter := [("E1", ⟨"10000", "PK-0"⟩)] }
      (by decide) (by decide) (by decide) rfl).2.2 (by decide) (by decide)
    show Except.ok
        [({ phase := 1,
                row := [("Issue Id", "E1"), ("Issue Type", "Epic"), ("Summary", "Release")],
                mapAtBuild := [],
                payload := { project := "PK", issuetype := "Epic", summary := "Release",
                             labels := [], epicNameField := some "Release" },
                created := ⟨"10000", "PK-0"⟩,
                mapAfter := [("E1", ⟨"10000", "PK-0"⟩)] } : TraceEntry).payload.epicLinkField,
         ({ phase := 2,
                row := [("Issue Type", "Task"), ("Summary", "Fix bug"), ("Epic Link", "E1")],
                mapAtBuild := [("E1", ⟨"10000", "PK-0"⟩)],
                payload := { project := "PK", issuetype := "Task", summary := "Fix bug",
                             labels := [], epicLinkField := some "PK-0" },
                created := ⟨"10001", "PK-1"⟩,
                mapAfter := [("E1", ⟨"10000", "PK-0"⟩),
                             ("Fix bug", ⟨"10001", "PK-1"⟩)] } : TraceEntry).payload.epicLinkField] =
      Except.ok [none, some "PK-0"]
    rw [h5]

/-- C9 witness: two rows with the same Summary and no Issue Id — the report
holds one entry under `dup` carrying the second creation (last write wins);
`mset` overwrites only the written key; `localId` matches the spec rule. -/
theorem identifier_map_semantics_witness :
    (runMain rowsDupSummary ⟨none, none, none⟩ ⟨"PK", none⟩ createsOk).map RunResult.report =
      .ok [("dup", ⟨"10001", "PK-1"⟩)] ∧
    mget (mset [("dup", ⟨"10000", "PK-0"⟩)] "dup" ⟨"10001", "PK-1"⟩) "dup" =
      some ⟨"10001", "PK-1"⟩ ∧
    mget (mset [("dup", ⟨"10000", "PK-0"⟩)] "other" ⟨"1", "K"⟩) "dup" =
      mget [("dup", ⟨"10000", "PK-0"⟩)] "dup" ∧
    localId [("Summary", "dup")] = localIdSpec [("Summary", "dup")] := by
  refine ⟨?_, ?_, ?_, ?_⟩
  · have hrun : runMain rowsDupSummary ⟨none, none, none⟩ ⟨"PK", none⟩ createsOk =
        .ok { finalMap := [("dup", ⟨"10001", "PK-1"⟩)],
              report := [("dup", ⟨"10001", "PK-1"⟩)],
              trace := [
                { phase := 2,
                  row := [("Issue Type", "Task"), ("Summary", "dup")],
                  mapAtBuild := [],
                  payload := { project := "PK", issuetype := "Task", summary := "dup",
                               labels := [] },
                  created := ⟨"10000", "PK-0"⟩,
                  mapAfter := [("dup", ⟨"10000", "PK-0"⟩)] },
                { phase := 2,
                  row := [("Issue Type", "Task"), ("Summary", "dup")],
                  mapAtBuild := [("dup", ⟨"10000", "PK-0"⟩)],
                  payload := { project := "PK", issuetype := "Task", summary := "dup",
                               labels := [] },
                  created := ⟨"10001", "PK-1"⟩,
                  mapAfter := [("dup", ⟨"10001", "PK-1"⟩)] }] } := by decide
    have h := (identifier_map_semantics.2.2.2 rowsDupSummary ⟨none, none, none⟩ ⟨"PK", none⟩
      createsOk _ hrun).1
    rw [hrun]
    simp only [Except.map, h]
  · exact identifier_map_semantics.2.1 _ "dup" _
  · exact identifier_map_semantics.2.2.1 _ "other" "dup" _ (by decide)
  · exact identifier_map_semantics.1 _

/-! ## Structured-text lemmas and claim C6 -/

theorem splitOnP_ne_nil (p : Char → Bool) (l : List Char) : splitOnP p l ≠ [] := by
  cases l with
  | nil => simp [splitOnP]
  | cons c cs =>
    simp only [splitOnP]
    split
    · simp
    · split <;> simp

theorem jsWhitespace_toLower (c : Char) (h : jsWhitespace c = true) : c.toLower = c := by
  have hn : c.toNat < 65 ∨ 90 < c.toNat := by
    simp only [jsWhitespace, Bool.or_eq_true, decide_eq_true_eq, Bool.and_eq_true] at h
    omega
  unfold Char.toLower
  rw [if_neg (by omega)]

theorem mem_take_scheme_not_ws (t : List Char) (pre : List Char)
    (hpre : ∀ c ∈ pre, jsWhitespace c = false) (n : Nat)
    (h : (t.take n).map Char.toLower = pre) :
    ∀ c ∈ t.take n, jsWhitespace c = false := by
  intro c hc
  by_contra hcw
  simp only [Bool.not_eq_false] at hcw
  have hcl : c.toLower ∈ pre := by
    rw [← h]
    exact List.mem_map_of_mem Char.toLower hc
  rw [jsWhitespace_toLower c hcw] at hcl
  rw [hpre c hcl] at hcw
  cases hcw

theorem isLikelyUrl_iff (s : String) :
    isLikelyUrl s = true ↔ specBareUrl (jsTrimList s.toList) := by
  unfold isLikelyUrl stripScheme specBareUrl
  set t := jsTrimList s.toList with ht
  have hpre7 : ∀ c ∈ "http://".toList, jsWhitespace c = false := by decide
  have hpre8 : ∀ c ∈ "https://".toList, jsWhitespace c = false := by decide
  by_cases h7 : (t.take 7).map Char.toLower = "http://".toList
  · rw [if_pos h7]
    constructor
    · intro hb
      simp only [Bool.and_eq_true, Bool.not_eq_true', List.all_eq_true] at hb
      obtain ⟨hne, hall⟩ := hb
      have hdne : t.drop 7 ≠ [] := by
        intro hc
        rw [hc] at hne
        cases hne
      have hlen : 7 < t.length := by
        by_contra hc
        exact hdne (List.drop_eq_nil_of_le (by omega))
      refine ⟨Or.inl ⟨h7, hlen⟩, ?_⟩
      intro c hc
      rw [← List.take_append_drop 7 t] at hc
      rcases List.mem_append.1 hc with hc1 | hc2
      · exact mem_take_scheme_not_ws t _ hpre7 7 h7 c hc1
      · simpa using hall c hc2
    · rintro ⟨hdisj, hws⟩
      have hlen : 7 < t.length := by
        rcases hdisj with ⟨_, hl⟩ | ⟨h8, _⟩
        · exact hl
        · exfalso
          have htt : t.take 7 = (t.take 8).take 7 := by
            rw [List.take_take]
            norm_num
          have h78 : (t.take 7).map Char.toLower = "https:/".toList := by
            rw [htt, List.map_take, h8]
            decide
          rw [h7] at h78
          exact absurd h78 (by decide)
      have hdne : t.drop 7 ≠ [] := by
        intro hc
        have hlen2 := congrArg List.length hc
        rw [List.length_drop] at hlen2
        simp at hlen2
        omega
      simp only [Bool.and_eq_true]
      refine ⟨?_, ?_⟩
      · cases hD : t.drop 7 with
        | nil => exact absurd hD hdne
        | cons a as => rfl
      · simp only [List.all_eq_true]
        intro c hc
        simp only [Bool.not_eq_true']
        exact hws c (List.drop_subset 7 t hc)
  · by_cases h8 : (t.take 8).map Char.toLower = "https://".toList
    · rw [if_neg h7, if_pos h8]
      constructor
      · intro hb
        simp only [Bool.and_eq_true, Bool.not_eq_true', List.all_eq_true] at hb
        obtain ⟨hne, hall⟩ := hb
        have hdne : t.drop 8 ≠ [] := by
          intro hc
          rw [hc] at hne
          cases hne
        have hlen : 8 < t.length := by
          by_contra hc
          exact hdne (List.drop_eq_nil_of_le (by omega))
        refine ⟨Or.inr ⟨h8, hlen⟩, ?_⟩
        intro c hc
        rw [← List.take_append_drop 8 t] at hc
        rcases List.mem_append.1 hc with hc1 | hc2
        · exact mem_take_scheme_not_ws t _ hpre8 8 h8 c hc1
        · simpa using hall c hc2
      · rintro ⟨hdisj, hws⟩
        have hlen : 8 < t.length := by
          rcases hdisj with ⟨h7c, _⟩ | ⟨_, hl⟩
          · exact absurd h7c h7
          · exact hl
        have hdne : t.drop 8 ≠ [] := by
          intro hc
          have hlen2 := congrArg List.length hc
          rw [List.length_drop] at hlen2
          simp at hlen2
          omega
        simp only [Bool.and_eq_true]
        refine ⟨?_, ?_⟩
        · cases hD : t.drop 8 with
          | nil => exact absurd hD hdne
          | cons a as => rfl
        · simp only [List.all_eq_true]
          intro c hc
          simp only [Bool.not_eq_true']
          exact hws c (List.drop_subset 8 t hc)
    · rw [if_neg h7, if_neg h8]
      constructor
      · intro hb
        cases hb
      · rintro ⟨hdisj, _⟩
        rcases hdisj with ⟨h7c, _⟩ | ⟨h8c, _⟩
        · exact absurd h7c h7
        · exact absurd h8c h8

/-- C6: the builder yields absent exactly for a missing / empty /
whitespace-only input and never an empty document; otherwise, after CRLF
normalization and splitting at LF it emits one block per line under the
`{version 1, type "doc"}` wrapper: an empty paragraph for a blank line, a
single hyperlink node (visible text = the URL) for a line whose trimmed
content is exactly a bare `http(s)://` URL (`specBareUrl` characterizes the
regex), and a single plain-text node carrying the original untrimmed line
otherwise. -/
theorem toADF_structured_text :
    (∀ d : Option String, toADF d = none ↔ jsTrim (d.getD "") = "") ∧
    (∀ s : String, jsTrim s ≠ "" →
      toADF (some s) = some ⟨1, "doc", (splitLines s).map lineToBlock⟩ ∧
      (splitLines s).map lineToBlock ≠ []) ∧
    (∀ line : String,
      (jsTrim line = "" → lineToBlock line = .para none) ∧
      (jsTrim line ≠ "" → isLikelyUrl (jsTrim line) = true →
        lineToBlock line = .para (some [.link (jsTrim line) (jsTrim line)])) ∧
      (jsTrim line ≠ "" → isLikelyUrl (jsTrim line) = false →
        lineToBlock line = .para (some [.text line]))) ∧
    (∀ s : String, isLikelyUrl s = true ↔ specBareUrl (jsTrimList s.toList)) := by
  refine ⟨?_, ?_, ?_, isLikelyUrl_iff⟩
  · intro d
    cases d with
    | none =>
      constructor
      · intro _
        rfl
      · intro _
        rfl
    | some s =>
      unfold toADF
      split
      · simp_all
      · simp_all
  · intro s hs
    constructor
    · unfold toADF
      dsimp only
      rw [if_neg hs]
    · unfold splitLines
      simp only [ne_eq, List.map_eq_nil_iff]
      exact splitOnP_ne_nil _ _
  · intro line
    refine ⟨?_, ?_, ?_⟩
    · intro h
      simp only [lineToBlock]
      rw [if_pos h]
    · intro h hurl
      simp only [lineToBlock]
      rw [if_neg h, if_pos hurl]
      rfl
    · intro h hurl
      simp only [lineToBlock]
      rw [if_neg h, if_neg (by simp [hurl])]
      rfl

/-- C6 witness: a blank input is absent; a mixed input yields exactly one
block per line — text, hyperlink, empty paragraph, text (the mid-line URL
stays plain text); and the predicate matches a bare uppercase-scheme URL. -/
theorem toADF_structured_text_witness :
    toADF (some " \n ") = none ∧
    toADF (some "hello\r\nhttps://x.io\n\nsee: https://y") =
      some ⟨1, "doc", [.para (some [.text "hello"]),
                       .para (some [.link "https://x.io" "https://x.io"]),
                       .para none,
                       .para (some [.text "see: https://y"])]⟩ ∧
    isLikelyUrl "HTTPS://ok" = true := by
  refine ⟨?_, ?_, ?_⟩
  · exact (toADF_structured_text.1 (some " \n ")).2 (by decide)
  · have h := (toADF_structured_text.2.1 "hello\r\nhttps://x.io\n\nsee: https://y"
      (by decide)).1
    rw [h]
    decide
  · refine (toADF_structured_text.2.2.2 "HTTPS://ok").2 ?_
    unfold specBareUrl
    decide
